import Mathlib

/-!
Verification development for the esp-rainmaker-app-cdf-ts fragment-merge /
intent-resolution / optimistic-reconciliation core.

The TypeScript sources are shallowly embedded: plain JavaScript values are
modelled by the inductive `JVal` (numbers as integers — no floating point
arithmetic occurs in the modelled code), JS objects by insertion-ordered
association lists, and code that can throw by `Except String`.  Each
definition mirrors one function of the source; the doc comment on a
definition names the source location it embeds.
-/

/-- JavaScript value universe used by the embedding.  `undefined` and `null`
are distinguished (the source distinguishes them in its sentinel checks);
numbers are modelled as integers, which is faithful for every value the
modelled code manipulates (minutes, day bitmaps, Unix seconds, counts). -/
inductive JVal where
  | null : JVal
  | undefined : JVal
  | bool : Bool → JVal
  | num : Int → JVal
  | str : String → JVal
  | arr : List JVal → JVal
  | obj : List (String × JVal) → JVal
deriving Repr

/-- JavaScript truthiness (`!!v`).  `NaN` does not occur in the model. -/
def truthy : JVal → Bool
  | .null => false
  | .undefined => false
  | .bool b => b
  | .num n => n != 0
  | .str s => s ≠ ""
  | .arr _ => true
  | .obj _ => true

/-- JavaScript `a || b`. -/
def jvOr (a b : JVal) : JVal := if truthy a then a else b

/-- Strict equality `===` restricted to the cases the embedding can decide:
equal primitives compare true; any comparison involving an array or object
compares false (reference equality of two distinct structures).  Where the
source follows a failed `===` with a structural comparison this is exact. -/
def primEq : JVal → JVal → Bool
  | .null, .null => true
  | .undefined, .undefined => true
  | .bool a, .bool b => a == b
  | .num a, .num b => a == b
  | .str a, .str b => a == b
  | _, _ => false

/-- `typeof v === "object"` (true for objects, arrays and `null`). -/
def jsTypeofIsObject : JVal → Bool
  | .null => true
  | .arr _ => true
  | .obj _ => true
  | _ => false

/-- First-match lookup in an insertion-ordered association list (JS property
read on an object whose keys are unique). -/
def lookupKey {α : Type} : List (String × α) → String → Option α
  | [], _ => none
  | (k, v) :: rest, key => if k = key then some v else lookupKey rest key

/-- JS property write: replace the value at an existing key in place,
append the key otherwise. -/
def setKey {α : Type} : List (String × α) → String → α → List (String × α)
  | [], key, v => [(key, v)]
  | (k, w) :: rest, key, v =>
      if k = key then (k, v) :: rest else (k, w) :: setKey rest key v

/-- JS `delete o[k]` on an object with unique keys. -/
def removeKey {α : Type} : List (String × α) → String → List (String × α)
  | [], _ => []
  | (k, w) :: rest, key => if k = key then rest else (k, w) :: removeKey rest key

/-- Keys of an association list, in order. -/
def keysOfEntries {α : Type} (l : List (String × α)) : List String := l.map (·.1)

/-- Index-keyed view of a JS array (`Object.keys` of an array yields the
decimal index strings, in order). -/
def arrEntries : Nat → List JVal → List (String × JVal)
  | _, [] => []
  | i, v :: rest => (toString i, v) :: arrEntries (i + 1) rest

/-- Own enumerable string-keyed entries of a value, as seen by `Object.keys`
/ object spread: fields for objects, index entries for arrays, character
entries for strings, nothing for other primitives. -/
def jvOwnEntries : JVal → List (String × JVal)
  | .obj fs => fs
  | .arr xs => arrEntries 0 xs
  | .str s => arrEntries 0 (s.data.map fun c => .str (String.mk [c]))
  | _ => []

/-- JS property read `v[k]` on a non-nullish base (also the result of the
optional-chaining read `v?.[k]`, which maps nullish bases to `undefined`). -/
def jvGet (v : JVal) (k : String) : JVal :=
  (lookupKey (jvOwnEntries v) k).getD .undefined

/-- JS property read `v[k]` where the source does not use optional chaining:
reading a property of `null`/`undefined` throws a `TypeError`. -/
def jvGetE (v : JVal) (k : String) : Except String JVal :=
  match v with
  | .null => .error "TypeError: cannot read properties of null"
  | .undefined => .error "TypeError: cannot read properties of undefined"
  | _ => .ok (jvGet v k)

/-- Key-presence test (`k in v` / spread-overwrite test). -/
def jvHas (v : JVal) (k : String) : Bool :=
  (lookupKey (jvOwnEntries v) k).isSome

/-- Whether a value is exactly `undefined`. -/
def jvIsUndef : JVal → Bool
  | .undefined => true
  | _ => false

/-- Whether a value is exactly `null`. -/
def jvIsNull : JVal → Bool
  | .null => true
  | _ => false

/-- `Object.keys(v)`: throws a `TypeError` on `null`/`undefined`, returns the
own enumerable keys otherwise (empty for non-object primitives). -/
def jvObjectKeysE (v : JVal) : Except String (List String) :=
  match v with
  | .null => .error "TypeError: Object.keys called on null"
  | .undefined => .error "TypeError: Object.keys called on undefined"
  | _ => .ok (keysOfEntries (jvOwnEntries v))

/-- Entries obtained by spreading `v` into an object literal, with the JS
rule that a repeated key keeps its first position and last value. -/
def jvSpreadOnto (base : List (String × JVal)) (v : JVal) : List (String × JVal) :=
  (jvOwnEntries v).foldl (fun acc kv => setKey acc kv.1 kv.2) base

mutual
/-- Structural size of a `JVal`, used as recursion fuel for the deep
traversals below; it strictly exceeds the size of every subterm. -/
def jvSize : JVal → Nat
  | .arr xs => jvSizeList xs + 1
  | .obj fs => jvSizeFields fs + 1
  | .null => 1
  | .undefined => 1
  | .bool _ => 1
  | .num _ => 1
  | .str _ => 1

/-- Size of a list of values (see `jvSize`). -/
def jvSizeList : List JVal → Nat
  | [] => 0
  | x :: xs => jvSize x + jvSizeList xs + 1

/-- Size of an object field list (see `jvSize`). -/
def jvSizeFields : List (String × JVal) → Nat
  | [] => 0
  | kv :: rest => jvSize kv.2 + jvSizeFields rest + 1
end

/-- Fuel-driven core of `isEqual` (src/src/utils/common.ts, `isEqual`): the
fuel argument is always instantiated with `jvSize` of the first argument,
which strictly bounds the recursion depth, so the `0` case is unreachable.
Mirrors the source: `===` short-circuit, the `typeof`/`null` guard, key-count
comparison, `includes` membership test and the recursive field comparison. -/
def isEqualFuel : Nat → JVal → JVal → Bool
  | 0, _, _ => false
  | n + 1, a, b =>
    if primEq a b then true
    else if jvIsNull a || jvIsNull b then false
    else if jsTypeofIsObject a && jsTypeofIsObject b then
      let ea := jvOwnEntries a
      let eb := jvOwnEntries b
      ea.length == eb.length &&
        ea.all fun kv =>
          match lookupKey eb kv.1 with
          | some w => isEqualFuel n kv.2 w
          | none => false
    else false

/-- Deep equality `isEqual` from src/src/utils/common.ts. -/
def isEqual (a b : JVal) : Bool := isEqualFuel (jvSize a) a b

/-- JSON string-literal encoding with quote/backslash escaping (the only
characters needing escapes in the modelled data). -/
def jsonQuote (s : String) : String :=
  String.mk ('"' :: s.data.foldr (fun c acc =>
    if c = '"' then '\\' :: '"' :: acc else
    if c = '\\' then '\\' :: '\\' :: acc else c :: acc) ['"'])

/-- Fuel-driven core of `JSON.stringify`; as with `isEqualFuel` the fuel is
instantiated with `jvSize` of the argument and the `0` case is unreachable.
Returns `none` exactly where `JSON.stringify` returns `undefined` (a
top-level `undefined`); inside arrays `undefined` prints as `null`, inside
objects the key is dropped. -/
def jsonStringifyFuel : Nat → JVal → Option String
  | 0, _ => none
  | n + 1, v =>
    match v with
    | .undefined => none
    | .null => some "null"
    | .bool b => some (if b then "true" else "false")
    | .num i => some (toString i)
    | .str s => some (jsonQuote s)
    | .arr xs =>
        some ("[" ++ String.intercalate ","
          (xs.map fun x => (jsonStringifyFuel n x).getD "null") ++ "]")
    | .obj fs =>
        some ("\x7b" ++ String.intercalate ","
          (fs.filterMap fun kv =>
            (jsonStringifyFuel n kv.2).map fun sv => jsonQuote kv.1 ++ ":" ++ sv)
          ++ "\x7d")

/-- `JSON.stringify` on the modelled value universe. -/
def jsonStringify (v : JVal) : Option String := jsonStringifyFuel (jvSize v) v

/-- The keyless path of `compareArrays` (src/src/utils/common.ts): checks
that every element of the first list is `JSON.stringify`-equal to some
element of the second.  Every call site in the modelled code passes plain
lists and no `key` argument, so the keyed fast path is not modelled. -/
def compareArrays (xs ys : List JVal) : Bool :=
  match xs with
  | [] => true
  | _ =>
    match ys with
    | [] => false
    | _ => xs.all fun x => ys.any fun y => jsonStringify x == jsonStringify y

/-- `compareArrays` as invoked on raw JS values: the source reads `.length`
and calls `.every`, so a non-array first argument is tolerated only when the
second argument is empty, and otherwise throws. -/
def compareArraysJV (a b : JVal) : Except String Bool :=
  match a with
  | .arr [] => .ok true
  | _ =>
    match b with
    | .arr [] => .ok false
    | .arr ys =>
      match a with
      | .arr xs => .ok (compareArrays xs ys)
      | _ => .error "TypeError: array1.every is not a function"
    | _ => .error "TypeError: array2.some is not a function"

/-- Property-key coercion for JS object indexing (`o[v]`).  Entity ids in the
modelled system are strings; the other primitive coercions are included for
completeness and structured values (never used as ids) coerce to "". -/
def jsKeyOf : JVal → String
  | .str s => s
  | .num n => toString n
  | .bool b => if b then "true" else "false"
  | .null => "null"
  | .undefined => "undefined"
  | .arr _ => ""
  | .obj _ => ""

/-- The `SUCCESS` constant from src (utils/constants). -/
def SUCCESS : String := "success"

/-- Operation tags for schedules.  Modelled from the spec: the
`ScheduleOperation` enum lives in `utils/constants`, whose schedule revision
is not among the provided sources; the spec (and every call site in src)
uses the operations add/edit/remove/enable/disable plus the `NO_CHANGE`
classification produced by the intent resolver. -/
inductive ScheduleOperation where
  | ADD : ScheduleOperation
  | EDIT : ScheduleOperation
  | REMOVE : ScheduleOperation
  | ENABLE : ScheduleOperation
  | DISABLE : ScheduleOperation
  | NO_CHANGE : ScheduleOperation
deriving Repr, DecidableEq

/-- Wire tag of a schedule operation (the enum's string value; modelled from
the spec after the `SceneOperation` naming convention in src — the exact
strings are carried opaquely by payloads and never branched on). -/
def ScheduleOperation.wireTag : ScheduleOperation → String
  | .ADD => "add"
  | .EDIT => "edit"
  | .REMOVE => "remove"
  | .ENABLE => "enable"
  | .DISABLE => "disable"
  | .NO_CHANGE => "no_change"

/-- Operation tags for scenes (`SceneOperation` in utils/constants). -/
inductive SceneOperation where
  | ADD : SceneOperation
  | EDIT : SceneOperation
  | REMOVE : SceneOperation
  | ACTIVATE : SceneOperation
deriving Repr, DecidableEq

/-- Wire tag of a scene operation (the enum's string value in src). -/
def SceneOperation.wireTag : SceneOperation → String
  | .ADD => "add"
  | .EDIT => "edit"
  | .REMOVE => "remove"
  | .ACTIVATE => "activate"

/-- In-memory `Schedule` entity (src/src/impls/Schedule.ts).  The data
fields of the class; the bound methods are modelled as standalone functions
below and the private `#rootStore` backlink is not a value.  `id` is kept as
a string (entity ids are strings end to end; the map keyed by them coerces
with `jsKeyOf` at each indexing site). -/
structure ScheduleEntity where
  id : String
  name : JVal
  nodes : List String
  enabled : JVal
  triggers : JVal
  action : List (String × JVal)
  devicesCount : Nat
  info : JVal
  flags : JVal
  validity : JVal
  outOfSyncMeta : List (String × JVal)
  callbackUpdateOperation : List (String × ScheduleOperation)
deriving Repr

/-- Raw constructor input for `new Schedule(...)`: the object literal handed
to the constructor at each construction site, before the constructor's
defaulting.  `nodes`, `devicesCount` and `outOfSyncMeta` are typed because
every construction site passes them explicitly with these shapes. -/
structure ScheduleInput where
  id : JVal
  name : JVal
  nodes : List String
  enabled : JVal
  triggers : JVal
  action : JVal
  devicesCount : Nat
  info : JVal
  flags : JVal
  validity : JVal
  outOfSyncMeta : List (String × JVal)
deriving Repr

/-- `validateSchedule` (src/src/impls/Schedule.ts, lines 641-663): name and
triggers must be truthy, every trigger needs `m` or `rsec`, the action map
must be truthy and non-empty. -/
def validateSchedule (name triggers action : JVal) : Except String Unit :=
  if !truthy name then .error "Name is required"
  else if !truthy triggers then .error "Triggers are required"
  else
    match triggers with
    | .arr ts =>
      if !(ts.all fun t => !jvIsUndef (jvGet t "m") || !jvIsUndef (jvGet t "rsec")) then
        .error "Every trigger must have either minutes (m) or relative seconds (rsec) defined"
      else if !truthy action then .error "Action is required"
      else if (keysOfEntries (jvOwnEntries action)).length == 0 then
        .error "Action must contain at least one node configuration"
      else .ok ()
    | _ => .error "TypeError: triggers.every is not a function"

/-- The `Schedule` constructor (src/src/impls/Schedule.ts, lines 85-107):
validates, then normalizes each field with the source's `|| default`
fallbacks (`enabled || false`, `info/flags/validity || null`, `action ||` empty object)
and resets `callbackUpdateOperation`. -/
def mkSchedule (inp : ScheduleInput) : Except String ScheduleEntity :=
  match validateSchedule inp.name inp.triggers inp.action with
  | .error e => .error e
  | .ok _ => .ok {
      id := jsKeyOf inp.id,
      name := inp.name,
      nodes := inp.nodes,
      enabled := jvOr inp.enabled (.bool false),
      triggers := jvOr inp.triggers (.arr []),
      action := jvOwnEntries (jvOr inp.action (.obj [])),
      devicesCount := inp.devicesCount,
      info := jvOr inp.info .null,
      flags := jvOr inp.flags .null,
      validity := jvOr inp.validity .null,
      outOfSyncMeta := inp.outOfSyncMeta,
      callbackUpdateOperation := [] }

namespace Schedule

/-- `#determineEditOperation` (src/src/impls/Schedule.ts, lines 264-298).
Presence in a map is the source's truthiness test `!!map[nodeId]`; the
action blobs are compared with deep `isEqual`, the trigger lists with the
one-directional `compareArrays`, `name`/`info`/`flags` with strict `!==`
and `validity` with deep `isEqual`. -/
def determineEditOperation (s : ScheduleEntity) (nodeId : String)
    (newaction scheduleName triggers info flags validity : JVal) :
    Except String ScheduleOperation :=
  if nodeId = "" then .error "nodeId is required for determining edit operation"
  else
    if truthy ((lookupKey s.action nodeId).getD .undefined) &&
        !truthy (jvGet newaction nodeId) then .ok .REMOVE
    else if !truthy ((lookupKey s.action nodeId).getD .undefined) &&
        truthy (jvGet newaction nodeId) then .ok .ADD
    else if truthy ((lookupKey s.action nodeId).getD .undefined) &&
        truthy (jvGet newaction nodeId) &&
        !isEqual ((lookupKey s.action nodeId).getD .undefined) (jvGet newaction nodeId) then
      .ok .EDIT
    else if !primEq scheduleName s.name then .ok .EDIT
    else
      match compareArraysJV triggers s.triggers with
      | .error e => .error e
      | .ok same =>
        if !same then .ok .EDIT
        else if !primEq info s.info then .ok .EDIT
        else if !primEq flags s.flags then .ok .EDIT
        else if !isEqual validity s.validity then .ok .EDIT
        else .ok .NO_CHANGE

/-- One node-addressed schedule message.  `body` is the single entry the
source places under `payload.Schedule[0].Schedules[0]`; the two-level
wrapper is a fixed shape and is reconstructed by `wireForm` below. -/
structure PayloadMsg where
  nodeId : String
  body : List (String × JVal)
deriving Repr

/-- The fixed `Schedule/Schedules` nesting the source wraps each payload
body in (src/src/impls/Schedule.ts, lines 246-255). -/
def PayloadMsg.wireForm (p : PayloadMsg) : JVal :=
  .obj [("Schedule", .arr [.obj [("Schedules", .arr [.obj p.body])]])]

/-- The `createPayload` helper inside `#generatePayload` (lines 192-200):
starts from the base payload and re-assigns each of `info`/`flags`/
`validity` when it is not `null`.  Because the base payload for ADD/EDIT
already contains those keys, the conditional assignment never removes a
key — it only rewrites the value in place. -/
def createPayload (basePayload : List (String × JVal)) (info flags validity : JVal) :
    List (String × JVal) :=
  let p := basePayload
  let p := if !jvIsNull info then setKey p "info" info else p
  let p := if !jvIsNull flags then setKey p "flags" flags else p
  if !jvIsNull validity then setKey p "validity" validity else p

/-- `#generatePayload` (src/src/impls/Schedule.ts, lines 177-256).  Key
order inside each body follows the source's object literals.  `NO_CHANGE`
has no entry in the operation table, producing the "Unknown operation type"
error; a falsy `nodeId` errors after that check, as in the source. -/
def generatePayload (type : ScheduleOperation) (action : JVal) (nodeId : String)
    (triggers : JVal) (scheduleId : String) (scheduleName info flags validity : JVal) :
    Except String PayloadMsg :=
  let body? : Option (List (String × JVal)) :=
    match type with
    | .ADD => some (createPayload
        [("id", .str scheduleId), ("operation", .str ScheduleOperation.ADD.wireTag),
         ("name", scheduleName), ("action", action), ("info", info),
         ("triggers", triggers), ("flags", flags), ("validity", validity)]
        info flags validity)
    | .REMOVE => some
        [("id", .str scheduleId), ("operation", .str ScheduleOperation.REMOVE.wireTag)]
    | .EDIT => some (createPayload
        [("id", .str scheduleId), ("name", scheduleName),
         ("operation", .str ScheduleOperation.EDIT.wireTag), ("action", action),
         ("info", info), ("triggers", triggers), ("flags", flags), ("validity", validity)]
        info flags validity)
    | .ENABLE => some
        [("id", .str scheduleId), ("operation", .str ScheduleOperation.ENABLE.wireTag)]
    | .DISABLE => some
        [("id", .str scheduleId), ("operation", .str ScheduleOperation.DISABLE.wireTag)]
    | .NO_CHANGE => none
  match body? with
  | none => .error "Unknown operation type"
  | some body =>
    if nodeId = "" then .error "nodeId is required for generating payload"
    else .ok { nodeId := nodeId, body := body }

end Schedule

/-- One entry of the per-node result list returned by the batched remote
call (`MultiNodeResponsePayload` in src/src/types/index.ts). -/
structure MultiNodeResponsePayload where
  node_id : String
  status : String
  description : String
deriving Repr, DecidableEq

namespace Schedule

/-- Parameters reaching `#operations` (the object built by each caller;
`ScheduleOperationParams` in src/src/types/index.ts).  A field holding
`undefined` triggers the destructuring default, exactly as in JS; `nodes`
is `none` when the caller's object carries no such key. -/
structure OperationParams where
  scheduleName : JVal
  triggers : JVal
  action : JVal
  nodes : Option (List String)
  info : JVal
  flags : JVal
  validity : JVal
deriving Repr

/-- The empty parameter object (calls such as `this.#operations(type)`). -/
def OperationParams.empty : OperationParams :=
  { scheduleName := .undefined, triggers := .undefined, action := .undefined,
    nodes := none, info := .undefined, flags := .undefined, validity := .undefined }

/-- Outcome of `#operations`: either the locally synthesized success list
(returned without any remote call) or the payload batch handed to the single
`setMultipleNodesParams` call. -/
inductive OpOutcome where
  | localResponse : List MultiNodeResponsePayload → OpOutcome
  | remoteCall : List PayloadMsg → OpOutcome
deriving Repr

/-- State carried by the `nodes.reduce` in `#operations`: the accumulated
payload array plus the entity's `callbackUpdateOperation` map, which the
EDIT branch mutates. -/
structure ReduceState where
  payloads : List PayloadMsg
  cb : List (String × ScheduleOperation)
deriving Repr

/-- Body of the `nodes.reduce` callback in `#operations` (src/src/impls/
Schedule.ts, lines 395-442) for one node id, over already-destructured
(defaulted) parameter values. -/
def operationsStep (s : ScheduleEntity) (type : ScheduleOperation)
    (scheduleName triggers action info flags validity : JVal)
    (st : ReduceState) (nodeId : String) : Except String ReduceState :=
  if type = .EDIT then
    match determineEditOperation s nodeId action scheduleName triggers info flags validity with
    | .error e => .error e
    | .ok operationType =>
      if operationType = .NO_CHANGE then .ok st
      else
        match jvGetE action nodeId with
        | .error e => .error e
        | .ok av =>
          match generatePayload operationType av nodeId triggers s.id scheduleName info flags validity with
          | .error e => .error e
          | .ok pm => .ok { payloads := st.payloads ++ [pm],
                            cb := setKey st.cb nodeId operationType }
  else
    match jvGetE action nodeId with
    | .error e => .error e
    | .ok av =>
      match generatePayload type av nodeId triggers s.id scheduleName info flags validity with
      | .error e => .error e
      | .ok pm => .ok { payloads := st.payloads ++ [pm], cb := st.cb }

/-- The `nodes.reduce(...)` loop of `#operations`: processes the node ids in
order through `operationsStep`, aborting on the first thrown error. -/
def operationsReduce (s : ScheduleEntity) (type : ScheduleOperation)
    (scheduleName triggers action info flags validity : JVal) :
    List String → ReduceState → Except String ReduceState
  | [], st => .ok st
  | n :: rest, st =>
    match operationsStep s type scheduleName triggers action info flags validity st n with
    | .error e => .error e
    | .ok st' => operationsReduce s type scheduleName triggers action info flags validity rest st'

/-- `#operations` (src/src/impls/Schedule.ts, lines 377-456), from the point
after the user-session check (the remote session is an external
collaborator).  Destructuring defaults fire on `undefined` parameter values;
the reduce classifies/generates one payload per node; an empty payload batch
short-circuits to a synthesized success response for every node of the
original node set.  Returns the entity with its updated
`callbackUpdateOperation` together with the outcome. -/
def operations (s : ScheduleEntity) (type : ScheduleOperation) (p : OperationParams) :
    Except String (ScheduleEntity × OpOutcome) :=
  let scheduleName := if jvIsUndef p.scheduleName then s.name else p.scheduleName
  let triggers := if jvIsUndef p.triggers then s.triggers else p.triggers
  let action := if jvIsUndef p.action then .obj s.action else p.action
  let nodes := p.nodes.getD s.nodes
  let info := if jvIsUndef p.info then s.info else p.info
  let flags := if jvIsUndef p.flags then s.flags else p.flags
  let validity := if jvIsUndef p.validity then s.validity else p.validity
  match operationsReduce s type scheduleName triggers action info flags validity nodes
      { payloads := [], cb := s.callbackUpdateOperation } with
  | .error e => .error e
  | .ok st =>
    if st.payloads.isEmpty then
      .ok ({ s with callbackUpdateOperation := st.cb },
           .localResponse (nodes.map fun nodeId =>
             { node_id := nodeId, status := SUCCESS, description := "" }))
    else
      .ok ({ s with callbackUpdateOperation := st.cb }, .remoteCall st.payloads)

/-- The node set `#edit` computes (src/src/impls/Schedule.ts, line 505):
`Object.keys` of the spread of the proposed action map followed by the
entity's current action map. -/
def editNodes (argsAction : JVal) (s : ScheduleEntity) : List String :=
  keysOfEntries (s.action.foldl (fun acc kv => setKey acc kv.1 kv.2)
    (jvSpreadOnto [] argsAction))

/-- `#edit` (src/src/impls/Schedule.ts, lines 495-515): destructures the
caller's argument object (absent keys read as `undefined` and so fall back
to the entity's values inside `#operations`) and delegates to `#operations`
with the EDIT tag and the computed node set. -/
def edit (s : ScheduleEntity) (args : JVal) : Except String (ScheduleEntity × OpOutcome) :=
  let nodes := editNodes (jvGet args "action") s
  operations s .EDIT {
    scheduleName := jvGet args "name", triggers := jvGet args "triggers",
    action := jvGet args "action", nodes := some nodes,
    info := jvGet args "info", flags := jvGet args "flags",
    validity := jvGet args "validity" }

end Schedule

/-- In-memory `Scene` entity (src/src/impls/Scene.ts): identity, shared
fields, per-node `actions` map and the per-mutation operation ledger.  Note
the class has no out-of-sync ledger of any kind. -/
structure SceneEntity where
  id : String
  name : JVal
  info : JVal
  nodes : List String
  actions : List (String × JVal)
  devicesCount : Nat
  callbackUpdateOperation : List (String × SceneOperation)
deriving Repr

/-- Raw constructor input for `new Scene(...)`. -/
structure SceneInput where
  id : JVal
  name : JVal
  info : JVal
  nodes : List String
  actions : JVal
  devicesCount : Nat
deriving Repr

/-- The `Scene` constructor (src/src/impls/Scene.ts, lines 31-52): requires
truthy `id` and `name`; `info` is stored raw; `actions ||` empty-object fallback. -/
def mkScene (inp : SceneInput) : Except String SceneEntity :=
  if !truthy inp.id || !truthy inp.name then
    .error "Scene must have both id and name"
  else .ok {
    id := jsKeyOf inp.id,
    name := inp.name,
    info := inp.info,
    nodes := inp.nodes,
    actions := jvOwnEntries (jvOr inp.actions (.obj [])),
    devicesCount := inp.devicesCount,
    callbackUpdateOperation := [] }

namespace Scene

/-- `#determineEditOperation` (src/src/impls/Scene.ts, lines 137-151): the
present-in-both branch returns EDIT unconditionally — no content comparison
of any kind — and the both-absent fall-through also returns EDIT. -/
def determineEditOperation (s : SceneEntity) (nodeId : String) (newActions : JVal) :
    Except String SceneOperation :=
  if nodeId = "" then .error "nodeId is required for determining edit operation"
  else
    let existInOldActions := truthy ((lookupKey s.actions nodeId).getD .undefined)
    let existInNewActions := truthy (jvGet newActions nodeId)
    if existInOldActions && existInNewActions then .ok .EDIT
    else if existInOldActions && !existInNewActions then .ok .REMOVE
    else if !existInOldActions && existInNewActions then .ok .ADD
    else .ok .EDIT

/-- One node-addressed scene message; `body` is the entry the source places
under `payload.Scenes[0].Scenes[0]`. -/
structure PayloadMsg where
  nodeId : String
  body : List (String × JVal)
deriving Repr

/-- `#generatePayload` (src/src/impls/Scene.ts, lines 81-129).  All four
operation tags have table entries, so the unknown-operation throw is
unreachable; there is no nodeId check in the scene version. -/
def generatePayload (actions : JVal) (nodeId : String) (type : SceneOperation)
    (sceneName sceneId info : JVal) : PayloadMsg :=
  let body : List (String × JVal) :=
    match type with
    | .ADD =>
        [("id", sceneId), ("operation", .str SceneOperation.ADD.wireTag),
         ("name", sceneName), ("action", actions), ("info", info)]
    | .ACTIVATE =>
        [("id", sceneId), ("operation", .str SceneOperation.ACTIVATE.wireTag)]
    | .REMOVE =>
        [("id", sceneId), ("operation", .str SceneOperation.REMOVE.wireTag)]
    | .EDIT =>
        [("name", sceneName), ("id", sceneId),
         ("operation", .str SceneOperation.EDIT.wireTag), ("action", actions), ("info", info)]
  { nodeId := nodeId, body := body }

/-- State carried by the `nodes.map` in the scene `#operations`. -/
structure MapState where
  payloads : List PayloadMsg
  cb : List (String × SceneOperation)
deriving Repr

/-- Body of the `nodes.map` callback in the scene `#operations`
(src/src/impls/Scene.ts, lines 165-189): every node receives a payload;
the EDIT branch first resolves the per-node operation and records it. -/
def operationsStep (s : SceneEntity) (type : SceneOperation)
    (sceneName actions info : JVal) (st : MapState) (nodeId : String) :
    Except String MapState :=
  if type = .EDIT then
    match determineEditOperation s nodeId actions with
    | .error e => .error e
    | .ok operationType =>
      match jvGetE actions nodeId with
      | .error e => .error e
      | .ok av => .ok {
          payloads := st.payloads ++
            [generatePayload av nodeId operationType sceneName (.str s.id) info],
          cb := setKey st.cb nodeId operationType }
  else
    match jvGetE actions nodeId with
    | .error e => .error e
    | .ok av => .ok {
        payloads := st.payloads ++
          [generatePayload av nodeId type sceneName (.str s.id) info],
        cb := st.cb }

/-- The `nodes.map(...)` loop of the scene `#operations`, processed in
order, aborting on the first thrown error. -/
def operationsReduce (s : SceneEntity) (type : SceneOperation)
    (sceneName actions info : JVal) :
    List String → MapState → Except String MapState
  | [], st => .ok st
  | n :: rest, st =>
    match operationsStep s type sceneName actions info st n with
    | .error e => .error e
    | .ok st' => operationsReduce s type sceneName actions info rest st'

/-- The scene `#operations` (src/src/impls/Scene.ts, lines 153-192), from
the point after the user-session check.  JS default parameter values fire
on `undefined`; the whole batch is always handed to the single remote call
(no empty-batch short circuit exists for scenes). -/
def operations (s : SceneEntity) (type : SceneOperation)
    (sceneNameArg actionsArg : JVal) (nodesArg : Option (List String))
    (infoArg : JVal) : Except String (SceneEntity × List PayloadMsg) :=
  let sceneName := if jvIsUndef sceneNameArg then s.name else sceneNameArg
  let actions := if jvIsUndef actionsArg then .obj s.actions else actionsArg
  let nodes := nodesArg.getD s.nodes
  let info := if jvIsUndef infoArg then jvOr s.info (.str "") else infoArg
  match operationsReduce s type sceneName actions info nodes
      { payloads := [], cb := s.callbackUpdateOperation } with
  | .error e => .error e
  | .ok st => .ok ({ s with callbackUpdateOperation := st.cb }, st.payloads)

/-- The node set the scene `#edit` computes (src/src/impls/Scene.ts, line
207): `Object.keys` of the spread of the proposed actions map followed by
the entity's current actions map. -/
def editNodes (argsActions : JVal) (s : SceneEntity) : List String :=
  keysOfEntries (s.actions.foldl (fun acc kv => setKey acc kv.1 kv.2)
    (jvSpreadOnto [] argsActions))

/-- `#edit` (src/src/impls/Scene.ts, lines 198-209). -/
def edit (s : SceneEntity) (args : JVal) :
    Except String (SceneEntity × List PayloadMsg) :=
  let nodes := editNodes (jvGet args "actions") s
  operations s .EDIT (jvGet args "name") (jvGet args "actions") (some nodes)
    (jvGet args "info")

end Scene

/-- Well-known service/param type identifiers.  The scene pair is in src
(utils/constants); the schedule pair follows the same naming convention and
is modelled from the spec ("one pair of identifiers per entity kind") — the
values are only ever compared for equality. -/
def ESPRM_SERVICE_SCENES : String := "esp.service.scenes"

/-- Scene parameter type identifier (utils/constants in src). -/
def ESPRM_PARAM_SCENES : String := "esp.param.scenes"

/-- Modelled from the spec: schedule service type identifier (the schedule
revision of utils/constants is not among the provided sources). -/
def ESPRM_SERVICE_SCHEDULES : String := "esp.service.schedules"

/-- Modelled from the spec: schedule parameter type identifier. -/
def ESPRM_PARAM_SCHEDULES : String := "esp.param.schedules"

/-- One service parameter of a node's cached configuration; `value` is the
raw fragment array for the entity-kind parameter. -/
structure ESPRMParamRec where
  type : String
  value : List JVal
deriving Repr

/-- One service of a node's cached configuration. -/
structure ESPRMServiceRec where
  type : String
  params : List ESPRMParamRec
deriving Repr

/-- A node of the Node Registry: its id and its cached service list (the
`nodeConfig.services` path; the intermediate `nodeConfig` record carries no
modelled state of its own). -/
structure ESPRMNodeRec where
  id : String
  services : List ESPRMServiceRec
deriving Repr

/-- The raw fragment list a node carries for a given service/param type
pair: `node?.nodeConfig?.services?.find(...)`, then
`service.params.find(...)?.value || []`; `none` when the service itself is
absent (the merge skips such nodes). -/
def nodeFragments (svcType paramType : String) (n : ESPRMNodeRec) :
    Option (List JVal) :=
  match n.services.find? (fun s => s.type = svcType) with
  | none => none
  | some svc =>
    some (((svc.params.find? fun p => p.type = paramType).map (·.value)).getD [])

/-- The six shared-field keys the schedule merge hands to
`isScheduleInSync` (src/unnamed/part_001, line 489). -/
def scheduleSyncKeys : List String :=
  ["name", "enabled", "triggers", "validity", "flags", "info"]

/-- Dynamic read `existingSchedule[key]` for the shared-field keys used by
the sync check (the only keys its call site passes). -/
def scheduleFieldByKey (s : ScheduleEntity) (k : String) : JVal :=
  if k = "name" then s.name
  else if k = "enabled" then s.enabled
  else if k = "triggers" then s.triggers
  else if k = "validity" then s.validity
  else if k = "flags" then s.flags
  else if k = "info" then s.info
  else .undefined

/-- One key of the `isScheduleInSync` comparison (src/unnamed/part_001,
lines 420-445): arrays via `compareArrays`, object-typed values via
`JSON.stringify`, scalars via strict `!==` guarded so that a nullish new
value is never recorded.  Returns the recorded value when out of sync. -/
def syncCheckField (existingValue newValue : JVal) : Option JVal :=
  match existingValue, newValue with
  | .arr xs, .arr ys => if compareArrays xs ys then none else some (.arr ys)
  | _, _ =>
    if jsTypeofIsObject existingValue && jsTypeofIsObject newValue then
      if jsonStringify existingValue == jsonStringify newValue then none
      else some newValue
    else if !primEq existingValue newValue && !jvIsNull newValue &&
        !jvIsUndef newValue then some newValue
    else none

/-- `isScheduleInSync` (src/unnamed/part_001, lines 412-451), folded over
the given keys; returns the out-of-sync meta map when non-empty (the source
returns `isInSync:false` exactly when the meta object is non-empty and its
caller only uses the meta in that case). -/
def isScheduleInSync (s : ScheduleEntity) (scheduleData : JVal)
    (keys : List String) : Option (List (String × JVal)) :=
  let meta := keys.foldl (fun acc k =>
    match syncCheckField (scheduleFieldByKey s k) (jvGet scheduleData k) with
    | some v => setKey acc k v
    | none => acc) []
  if meta.isEmpty then none else some meta

/-- One fragment step of `#transformNodeListToSchedules` (src/unnamed/
part_001, lines 478-508): merge into the accumulator entry when the id is
already present (append node, set the node's action slice, add the device
count, run the sync check), otherwise seed a fresh `Schedule` from the
fragment. -/
def mergeScheduleFragment (acc : List (String × ScheduleEntity))
    (nodeId : String) (scheduleData : JVal) :
    Except String (List (String × ScheduleEntity)) :=
  let sid := jsKeyOf (jvGet scheduleData "id")
  match lookupKey acc sid with
  | some e =>
    match jvObjectKeysE (jvGet scheduleData "action") with
    | .error err => .error err
    | .ok ks =>
      let e' : ScheduleEntity := { e with
        nodes := e.nodes ++ [nodeId],
        action := setKey e.action nodeId (jvGet scheduleData "action"),
        devicesCount := e.devicesCount + ks.length }
      let e'' : ScheduleEntity :=
        match isScheduleInSync e' scheduleData scheduleSyncKeys with
        | some meta =>
            { e' with outOfSyncMeta := setKey e'.outOfSyncMeta nodeId (.obj meta) }
        | none => e'
      .ok (setKey acc sid e'')
  | none =>
    match jvObjectKeysE (jvGet scheduleData "action") with
    | .error err => .error err
    | .ok ks =>
      match mkSchedule {
          id := jvGet scheduleData "id",
          name := jvGet scheduleData "name",
          nodes := [nodeId],
          enabled := jvGet scheduleData "enabled",
          triggers := jvGet scheduleData "triggers",
          action := .obj [(nodeId, jvGet scheduleData "action")],
          devicesCount := ks.length,
          info := jvGet scheduleData "info",
          flags := jvGet scheduleData "flags",
          validity := jvGet scheduleData "validity",
          outOfSyncMeta := [] } with
      | .error err => .error err
      | .ok ent => .ok (acc ++ [(sid, ent)])

/-- `#transformNodeListToSchedules` (src/unnamed/part_001, lines 464-514):
reduce over the node list, skipping nodes without the schedules service,
folding each node's fragment list through `mergeScheduleFragment`.  The
`rootStore` guard is modelled as satisfied (the store is always constructed
with its root). -/
def transformNodeListToSchedules (nodeList : List ESPRMNodeRec) :
    Except String (List (String × ScheduleEntity)) :=
  nodeList.foldlM (fun acc node =>
    match nodeFragments ESPRM_SERVICE_SCHEDULES ESPRM_PARAM_SCHEDULES node with
    | none => .ok acc
    | some frags => frags.foldlM (fun a f => mergeScheduleFragment a node.id f) acc) []

/-- One fragment step of `#transformNodeListToScenes` (src/src/store/
sceneStore.ts, lines 288-305): identical accumulation shape to the schedule
merge but with no sync check of any kind. -/
def mergeSceneFragment (acc : List (String × SceneEntity)) (nodeId : String)
    (sceneData : JVal) : Except String (List (String × SceneEntity)) :=
  let sid := jsKeyOf (jvGet sceneData "id")
  match lookupKey acc sid with
  | some e =>
    match jvObjectKeysE (jvGet sceneData "action") with
    | .error err => .error err
    | .ok ks =>
      .ok (setKey acc sid { e with
        nodes := e.nodes ++ [nodeId],
        actions := setKey e.actions nodeId (jvGet sceneData "action"),
        devicesCount := e.devicesCount + ks.length })
  | none =>
    match jvObjectKeysE (jvGet sceneData "action") with
    | .error err => .error err
    | .ok ks =>
      match mkScene {
          id := jvGet sceneData "id",
          name := jvGet sceneData "name",
          info := jvGet sceneData "info",
          nodes := [nodeId],
          actions := .obj [(nodeId, jvGet sceneData "action")],
          devicesCount := ks.length } with
      | .error err => .error err
      | .ok ent => .ok (acc ++ [(sid, ent)])

/-- `#transformNodeListToScenes` (src/src/store/sceneStore.ts, lines
279-308). -/
def transformNodeListToScenes (nodeList : List ESPRMNodeRec) :
    Except String (List (String × SceneEntity)) :=
  nodeList.foldlM (fun acc node =>
    match nodeFragments ESPRM_SERVICE_SCENES ESPRM_PARAM_SCENES node with
    | none => .ok acc
    | some frags => frags.foldlM (fun a f => mergeSceneFragment a node.id f) acc) []

/-- Replace the element at an index, leaving the list unchanged when the
index is out of range. -/
def modifyAt {α : Type} (xs : List α) (i : Nat) (f : α → α) : List α :=
  match xs.get? i with
  | none => xs
  | some x => xs.take i ++ f x :: xs.drop (i + 1)

/-- JS property assignment on a raw fragment (`fragment.k = v`).  Fragments
are plain objects; assignment on a non-object primitive is a sloppy-mode
no-op and nullish fragments cannot be produced by the modelled call sites. -/
def jvSetProp (f : JVal) (k : String) (v : JVal) : JVal :=
  match f with
  | .obj fs => .obj (setKey fs k v)
  | other => other

/-- `Array.prototype.splice(idx, 1)` as used with a `findIndex` result: a
non-negative index removes that element; the `-1` of a missed search
removes the last element (the JS negative-index rule) and is a no-op on an
empty array. -/
def spliceRemoveAt (xs : List JVal) (idx : Option Nat) : List JVal :=
  match idx with
  | some i => xs.take i ++ xs.drop (i + 1)
  | none => xs.dropLast

/-- Arguments of the `updateNodeSchedule` closure (`updateNodeScheduleParams`
in src/src/types/index.ts); `operation` is `none` when the node has no entry
in `callbackUpdateOperation` (the source reads `undefined` and the switch
falls through to `default`). -/
structure UpdateNodeScheduleArgs where
  nodeId : String
  action : JVal
  name : JVal
  info : JVal
  id : String
  triggers : JVal
  flags : JVal
  validity : JVal
  operation : Option ScheduleOperation
deriving Repr

/-- The `switch (operation)` of `updateNodeSchedule` (src/unnamed/part_001,
lines 160-191) applied to a node's raw fragment list.  EDIT/ENABLE/DISABLE
on a missing fragment index raises the JS `TypeError`; REMOVE with a missed
index is the `splice(-1, 1)` behaviour; an absent operation hits `default`
and changes nothing. -/
def applyScheduleOpToFragments (schedules : List JVal)
    (p : UpdateNodeScheduleArgs) : Except String (List JVal) :=
  let idx := schedules.findIdx? fun f => primEq (jvGet f "id") (.str p.id)
  match p.operation with
  | none => .ok schedules
  | some op =>
    match op with
    | .EDIT =>
      match idx with
      | none => .error "TypeError: cannot set properties of undefined"
      | some i => .ok (modifyAt schedules i fun f =>
          jvSetProp (jvSetProp (jvSetProp (jvSetProp (jvSetProp (jvSetProp f
            "name" p.name) "info" p.info) "action" p.action)
            "triggers" p.triggers) "flags" p.flags) "validity" p.validity)
    | .ADD => .ok (schedules ++ [.obj
        [("id", .str p.id), ("name", p.name), ("info", p.info),
         ("action", p.action), ("triggers", p.triggers), ("flags", p.flags),
         ("validity", p.validity)]])
    | .REMOVE => .ok (spliceRemoveAt schedules idx)
    | .ENABLE =>
      match idx with
      | none => .error "TypeError: cannot set properties of undefined"
      | some i => .ok (modifyAt schedules i fun f => jvSetProp f "enabled" (.bool true))
    | .DISABLE =>
      match idx with
      | none => .error "TypeError: cannot set properties of undefined"
      | some i => .ok (modifyAt schedules i fun f => jvSetProp f "enabled" (.bool false))
    | .NO_CHANGE => .ok schedules

/-- Replace the first registry node with the given id. -/
def replaceNodeFirst : List ESPRMNodeRec → String → ESPRMNodeRec → List ESPRMNodeRec
  | [], _, _ => []
  | n :: rest, nid, n' =>
      if n.id = nid then n' :: rest else n :: replaceNodeFirst rest nid n'

/-- Replace the value of the first parameter of the given type. -/
def setParamValue : List ESPRMParamRec → String → List JVal → List ESPRMParamRec
  | [], _, _ => []
  | prm :: rest, ptype, v =>
      if prm.type = ptype then { prm with value := v } :: rest
      else prm :: setParamValue rest ptype v

/-- The per-node core of `updateNodeSchedule` (src/unnamed/part_001, lines
123-203): resolves the node's schedules service (throwing when missing),
applies the operation to the service's raw fragment list, and writes the
node's configuration back.  The source mutates the `?.value || []` alias:
when the schedules parameter itself is absent the mutations land on a fresh
array and are lost, so the node is returned unchanged in that case (after
the operation's own error checks have run). -/
def applyNodeScheduleOp (node : ESPRMNodeRec) (p : UpdateNodeScheduleArgs) :
    Except String ESPRMNodeRec :=
  match node.services.findIdx? (fun s => s.type = ESPRM_SERVICE_SCHEDULES) with
  | none => .error ("Schedule service not found on node " ++ p.nodeId)
  | some svcIdx =>
    match node.services.get? svcIdx with
    | none => .error ("Schedule service not found on node " ++ p.nodeId)
    | some svc =>
      match svc.params.find? (fun prm => prm.type = ESPRM_PARAM_SCHEDULES) with
      | none =>
        match applyScheduleOpToFragments [] p with
        | .error e => .error e
        | .ok _ => .ok node
      | some prm =>
        match applyScheduleOpToFragments prm.value p with
        | .error e => .error e
        | .ok newFrags =>
          let svc' : ESPRMServiceRec :=
            { svc with params := setParamValue svc.params ESPRM_PARAM_SCHEDULES newFrags }
          .ok { node with services := modifyAt node.services svcIdx (fun _ => svc') }

/-- The full `updateNodeSchedule` effect on the registry: resolve the node
by id (throwing when it is missing) and replace it by the updated node. -/
def updateNodeSchedule (reg : List ESPRMNodeRec) (p : UpdateNodeScheduleArgs) :
    Except String (List ESPRMNodeRec) :=
  match reg.find? (fun n => n.id = p.nodeId) with
  | none => .error ("Node with ID " ++ p.nodeId ++ " not found")
  | some node =>
    match applyNodeScheduleOp node p with
    | .error e => .error e
    | .ok node' => .ok (replaceNodeFirst reg p.nodeId node')

/-- The `updateNodeSchedule` argument object the update interceptor's
`onSuccess` builds for one successful node (src/unnamed/part_001, lines
270-280). -/
def replayNodeArgs (args : JVal) (sid : String)
    (cb : List (String × ScheduleOperation)) (nodeId : String) (av : JVal) :
    UpdateNodeScheduleArgs :=
  { nodeId := nodeId, action := av,
    name := jvGet args "name", info := jvGet args "info",
    id := sid, triggers := jvGet args "triggers",
    flags := jvGet args "flags", validity := jvGet args "validity",
    operation := lookupKey cb nodeId }

/-- The `result.forEach` replay loop of the schedule update interceptor's
`onSuccess` (src/unnamed/part_001, lines 263-288): per-node effects are
replayed into the Node Registry only for responses whose status is
`SUCCESS`; those node ids are collected for the follow-up sync; non-success
responses leave the registry untouched. -/
def replayScheduleUpdate (reg : List ESPRMNodeRec) :
    List MultiNodeResponsePayload → List (String × ScheduleOperation) → JVal → String →
    Except String (List ESPRMNodeRec × List String)
  | [], _, _, _ => .ok (reg, [])
  | r :: rest, cb, args, sid =>
    if r.status = SUCCESS then
      match jvGetE (jvGet args "action") r.node_id with
      | .error e => .error e
      | .ok av =>
        match updateNodeSchedule reg (replayNodeArgs args sid cb r.node_id av) with
        | .error e => .error e
        | .ok reg' =>
          match replayScheduleUpdate reg' rest cb args sid with
          | .error e => .error e
          | .ok (regF, nl) => .ok (regF, r.node_id :: nl)
    else replayScheduleUpdate reg rest cb args sid

/-- The `ScheduleStore` state: the `_schedulesByID` entity map.  The class
declares no other data member; its `[key: string]: any` index signature is
a compile-time construct and creates nothing at runtime. -/
structure ScheduleStoreState where
  schedulesByID : List (String × ScheduleEntity)
deriving Repr

/-- The runtime read of `this._scenesByID` on a `ScheduleStore`: the class
declares no such member (the index signature is erased at compile time), so
the property read yields `undefined`. -/
def scenesByIDRead (_ : ScheduleStoreState) : JVal := .undefined

/-- `syncSchedulesFromNodes` (src/unnamed/part_001, lines 644-659): clears
the schedule map, filters the Node Registry's node list by the requested
ids, rebuilds the entity map with the Fragment Merge and installs it.  The
hook resets performed by `clear()` carry no modelled state. -/
def syncSchedulesFromNodes (registry : List ESPRMNodeRec) (nodeIds : List String)
    (st : ScheduleStoreState) : Except String ScheduleStoreState :=
  let nodeList := registry.filter fun n => nodeIds.contains n.id
  match transformNodeListToSchedules nodeList with
  | .error e => .error e
  | .ok m => .ok { st with schedulesByID := m }

/-- `Object.values` of `x.actions` (empty object when absent) reduced by
adding `Object.keys(cfg).length` per device config — the devices count the update interceptor
computes (src/unnamed/part_001, lines 239-245). -/
def devicesCountOfActions (v : JVal) : Except String Nat :=
  (jvOwnEntries v).foldlM (fun acc kv =>
    match jvObjectKeysE kv.2 with
    | .error e => .error e
    | .ok ks => .ok (acc + ks.length)) 0

/-- A field of the spread `... ctx, ... args` as read by the `Schedule`
constructor: the caller's key wins when present, otherwise the entity's
current value. -/
def spreadEditField (args : JVal) (k : String) (base : JVal) : JVal :=
  if jvHas args k then jvGet args k else base

/-- The `action` hook of the schedule update interceptor (src/unnamed/
part_001, lines 238-259): computes a devices count from `args[0].actions`
(note: schedule edit parameters carry `action`, not `actions`, so this
reads `undefined` and counts 0), builds the optimistic `Schedule` from the
spread of the context and the caller's arguments, and installs it in the
store's map. -/
def scheduleEditAction (st : ScheduleStoreState) (context : ScheduleEntity)
    (args : JVal) : Except String ScheduleStoreState :=
  match devicesCountOfActions (jvOr (jvGet args "actions") (.obj [])) with
  | .error e => .error e
  | .ok dc =>
    match mkSchedule {
        id := if jvHas args "id" then jvGet args "id" else .str context.id,
        name := spreadEditField args "name" context.name,
        nodes := context.nodes,
        enabled := spreadEditField args "enabled" context.enabled,
        triggers := spreadEditField args "triggers" context.triggers,
        action := spreadEditField args "action" (.obj context.action),
        devicesCount := dc,
        info := spreadEditField args "info" context.info,
        flags := spreadEditField args "flags" context.flags,
        validity := spreadEditField args "validity" context.validity,
        outOfSyncMeta := context.outOfSyncMeta } with
    | .error e => .error e
    | .ok updated =>
      .ok { st with schedulesByID := setKey st.schedulesByID updated.id updated }

/-- The emptying of `this._schedulesByID[context.id].callbackUpdateOperation` in the
update interceptor's `onSuccess`; the entry always exists there (the action
hook installed it). -/
def clearCbOpsAt (st : ScheduleStoreState) (sid : String) : ScheduleStoreState :=
  match lookupKey st.schedulesByID sid with
  | none => st
  | some e =>
    { st with schedulesByID :=
        setKey st.schedulesByID sid { e with callbackUpdateOperation := [] } }

/-- Final observable state of one intercepted schedule edit: the store, the
Node Registry and the transaction's result (the per-node response list, or
the rethrown exception). -/
structure EditTxnResult where
  store : ScheduleStoreState
  registry : List ESPRMNodeRec
  result : Except String (List MultiNodeResponsePayload)
deriving Repr

/-- The rollback of the schedule update interceptor (src/unnamed/part_001,
lines 260-262): `this._scenesByID[prevContext.id] = prevContext`.  The
indexed assignment first reads the base `this._scenesByID`, which is
`undefined` on a `ScheduleStore`, so it throws a TypeError before touching
anything — no store field is modified and `_schedulesByID` is left holding
the optimistic entity.  (Were the base an object, the write would succeed;
that branch is unreachable since the member never exists.) -/
def scheduleEditRollback (st : ScheduleStoreState) (_prevContext : ScheduleEntity) :
    Except String ScheduleStoreState :=
  match scenesByIDRead st with
  | .undefined => .error "TypeError: cannot set properties of undefined"
  | .null => .error "TypeError: cannot set properties of null"
  | _ => .ok st

/-- One execution of `createInterceptor`'s catch block with the schedule
edit hooks (src/src/utils/common.ts, lines 237-243): the rollback hook runs
first and itself throws, so its TypeError escapes the catch and replaces
the exception `err` being handled — the `throw err` rethrow below it is
never reached — and the store is left as it was at the failure point. -/
def scheduleEditCatch (st : ScheduleStoreState) (prevContext : ScheduleEntity)
    (err : String) :
    ScheduleStoreState × Except String (List MultiNodeResponsePayload) :=
  match scheduleEditRollback st prevContext with
  | .error typeErr => (st, .error typeErr)
  | .ok st' => (st', .error err)

/-- One intercepted `schedule.edit(args)` transaction: the composition of
`createInterceptor` (src/src/utils/common.ts, lines 227-245) with the
`updateScheduleInterceptor` hooks (src/unnamed/part_001, lines 237-289) and
the proxied original `Schedule.edit`.  The remote
`user.setMultipleNodesParams` is the external collaborator, passed in as
`remote`.  Control flow follows the source: snapshot; the async action hook
is invoked WITHOUT await (common.ts line 233), so it runs its body — which
ends in the store write — and a throw inside it rejects an unobserved
promise: the try/catch never sees it, nothing rolls back, the store keeps
its pre-action value (the write is the hook's last step) and the
transaction proceeds; then the original call (which resolves locally when
the payload batch is empty), and `onSuccess` replay + ledger clear + node
sync on success.  Every exception the try/catch does see takes the
`scheduleEditCatch` path: the rollback hook's own TypeError replaces it
(there is no onError hook).  Registry mutations the replay performed before
a later failure are not modelled; no modelled scenario fails there. -/
def runScheduleEditTxn (reg : List ESPRMNodeRec) (st : ScheduleStoreState)
    (sid : String) (args : JVal)
    (remote : List Schedule.PayloadMsg → Except String (List MultiNodeResponsePayload)) :
    EditTxnResult :=
  match lookupKey st.schedulesByID sid with
  | none => { store := st, registry := reg, result := .error "schedule not found" }
  | some context =>
    let prevContext := context
    let st1 := match scheduleEditAction st context args with
      | .ok st1 => st1
      | .error _ => st
    match Schedule.edit context args with
    | .error e =>
      let (stF, res) := scheduleEditCatch st1 prevContext e
      { store := stF, registry := reg, result := res }
    | .ok (ctx', outcome) =>
      let remoteRes : Except String (List MultiNodeResponsePayload) :=
        match outcome with
        | .localResponse rs => .ok rs
        | .remoteCall ps => remote ps
      match remoteRes with
      | .error e =>
        let (stF, res) := scheduleEditCatch st1 prevContext e
        { store := stF, registry := reg, result := res }
      | .ok results =>
        match replayScheduleUpdate reg results ctx'.callbackUpdateOperation args sid with
        | .error e =>
          let (stF, res) := scheduleEditCatch st1 prevContext e
          { store := stF, registry := reg, result := res }
        | .ok (reg', nodeList) =>
          let st2 := clearCbOpsAt st1 sid
          match syncSchedulesFromNodes reg' nodeList st2 with
          | .error e =>
            let (stF, res) := scheduleEditCatch st2 prevContext e
            { store := stF, registry := reg', result := res }
          | .ok st3 =>
            { store := st3, registry := reg', result := .ok results }

/-- The claim-side invariant formula for `devicesCount`: the sum, over all
node fragments of the entity's action map, of the number of device entries
in that fragment's action blob. -/
def scheduleDevicesSum (e : ScheduleEntity) : Nat :=
  e.action.foldl (fun a kv => a + (keysOfEntries (jvOwnEntries kv.2)).length) 0

/-- A weekday-morning trigger (m: 420, d: 127). -/
def trg420 : JVal := .obj [("m", .num 420), ("d", .num 127)]

/-- A one-device action blob. -/
def blobL : JVal := .obj [("Light", .obj [("power", .bool true)])]

/-- A two-device action blob. -/
def blob2 : JVal :=
  .obj [("Light", .obj [("power", .bool true)]), ("Fan", .obj [("power", .bool false)])]

/-- A raw schedule fragment for schedule `s1` with the given name. -/
def evFrag (nm : String) : JVal :=
  .obj [("id", .str "s1"), ("name", .str nm), ("action", blobL), ("triggers", .arr [trg420])]

/-- The schedules parameter of a node hosting `evFrag nm`. -/
def evPrm (nm : String) : ESPRMParamRec :=
  { type := ESPRM_PARAM_SCHEDULES, value := [evFrag nm] }

/-- The schedules service of a node hosting `evFrag nm`. -/
def evSvc (nm : String) : ESPRMServiceRec :=
  { type := ESPRM_SERVICE_SCHEDULES, params := [evPrm nm] }

/-- A registry node hosting one fragment of schedule `s1`. -/
def evNode (nid nm : String) : ESPRMNodeRec := { id := nid, services := [evSvc nm] }

/-- A raw scene fragment for scene `s1` with the given name. -/
def evSceneFrag (nm : String) : JVal :=
  .obj [("id", .str "s1"), ("name", .str nm), ("action", blobL)]

/-- The scenes parameter of a node hosting `evSceneFrag nm`. -/
def evScenePrm (nm : String) : ESPRMParamRec :=
  { type := ESPRM_PARAM_SCENES, value := [evSceneFrag nm] }

/-- The scenes service of a node hosting `evSceneFrag nm`. -/
def evSceneSvc (nm : String) : ESPRMServiceRec :=
  { type := ESPRM_SERVICE_SCENES, params := [evScenePrm nm] }

/-- A registry node hosting one fragment of scene `s1`. -/
def evSceneNode (nid nm : String) : ESPRMNodeRec :=
  { id := nid, services := [evSceneSvc nm] }

/-- Constructor input for the C1 scenario's schedule `s1`. -/
def c1Input : ScheduleInput :=
  { id := .str "s1", name := .str "Old name", nodes := ["n1"], enabled := .undefined,
    triggers := .arr [trg420], action := .obj [("n1", blobL)], devicesCount := 1,
    info := .undefined, flags := .undefined, validity := .undefined, outOfSyncMeta := [] }

/-- The schedule entity `s1` as the constructor produces it. -/
def c1Sched : ScheduleEntity :=
  { id := "s1", name := .str "Old name", nodes := ["n1"], enabled := .bool false,
    triggers := .arr [trg420], action := [("n1", blobL)], devicesCount := 1,
    info := .null, flags := .null, validity := .null, outOfSyncMeta := [],
    callbackUpdateOperation := [] }

/-- The C1 edit arguments: rename `s1` keeping action and triggers. -/
def c1EditArgs : JVal :=
  .obj [("name", .str "New name"), ("triggers", .arr [trg420]),
        ("action", .obj [("n1", blobL)])]

/-- The C1 store holding `s1` before the transaction. -/
def c1Store : ScheduleStoreState :=
  { schedulesByID := [("s1", c1Sched)] }

/-- The C1 transaction: the intercepted `edit` whose remote call throws. -/
def c1Txn : EditTxnResult :=
  runScheduleEditTxn [] c1Store "s1" c1EditArgs (fun _ => .error "network failure")

/-- Sanity: the C1 entity literal is exactly what the constructor builds. -/
theorem c1Sched_is_constructed : mkSchedule c1Input = .ok c1Sched := rfl

/-- Claim C1 (code bug): the schedule edit transaction's rollback must
restore the schedule under the ScheduleStore's schedule map, leaving the
entity deep-equal to its pre-transaction state, with the original exception
rethrown.  Evaluating the code on a failed edit of `s1` (rename
"Old name" → "New name", remote call throws "network failure"): the
rollback hook's `this._scenesByID[prevContext.id] = prevContext` is an
indexed write on the nonexistent `_scenesByID` member — `undefined` at
runtime, the index signature being compile-time only — so the hook throws
a TypeError that replaces the remote error inside the catch, and
`_schedulesByID.s1` still holds the optimistic entity with the new name:
the entity is not restored, and the surfaced exception is the TypeError,
not the original failure. -/
theorem claim_C1_rollback_not_restored :
    c1Txn.result = .error "TypeError: cannot set properties of undefined"
    ∧ (lookupKey c1Txn.store.schedulesByID "s1").map (fun e => e.name)
        = some (.str "New name")
    ∧ c1Sched.name = .str "Old name"
    ∧ lookupKey c1Store.schedulesByID "s1" = some c1Sched :=
  ⟨rfl, rfl, rfl, rfl⟩

/-- The C4 validity window fixture. -/
def c4Validity : JVal := .obj [("start", .num 1673567400), ("end", .num 1704931800)]

/-- The body `#generatePayload` produces for the C4 ADD input. -/
def c4Body : List (String × JVal) :=
  [("id", .str "s1"), ("operation", .str "add"), ("name", .str "Sched"),
   ("action", blobL), ("info", .str "X"), ("triggers", .arr [trg420]),
   ("flags", .null), ("validity", c4Validity)]

/-- Claim C4 (code bug): an ADD/EDIT payload is supposed to omit (carry no
key for) every optional field whose value is the "absent" sentinel — here
`flags` — while carrying `info` and `validity`.  Evaluating the code with
shared fields `info = "X"`, `flags = null` (the constructor's sentinel for
an absent flags value), `validity = (start, end)`: the generated body always
contains the `flags` key, with the sentinel itself as its value, because
the base payload already lists `info`/`flags`/`validity` before the
"only add optional fields if they are defined" conditionals run. -/
theorem claim_C4_sentinel_field_not_omitted :
    Schedule.generatePayload .ADD blobL "n1" (.arr [trg420]) "s1" (.str "Sched")
        (.str "X") .null c4Validity
      = .ok { nodeId := "n1", body := c4Body }
    ∧ lookupKey c4Body "flags" = some .null
    ∧ lookupKey c4Body "info" = some (.str "X")
    ∧ lookupKey c4Body "validity" = some c4Validity :=
  ⟨rfl, rfl, rfl, rfl⟩

/-- The C9 schedule entity: one node, a two-device action blob, consistent
`devicesCount = 2` as produced by the merge/constructor. -/
def c9Sched : ScheduleEntity :=
  { id := "s9", name := .str "Night", nodes := ["n1"], enabled := .bool false,
    triggers := .arr [trg420], action := [("n1", blob2)], devicesCount := 2,
    info := .null, flags := .null, validity := .null, outOfSyncMeta := [],
    callbackUpdateOperation := [] }

/-- The C9 edit arguments: rename, same two-device action map. -/
def c9Args : JVal :=
  .obj [("name", .str "Night v2"), ("triggers", .arr [trg420]),
        ("action", .obj [("n1", blob2)])]

/-- The C9 store before the transaction. -/
def c9Store : ScheduleStoreState :=
  { schedulesByID := [("s9", c9Sched)] }

/-- The C9 transaction: the intercepted `edit` whose remote call throws. -/
def c9Txn : EditTxnResult :=
  runScheduleEditTxn [] c9Store "s9" c9Args (fun _ => .error "network failure")

/-- Claim C9 (code bug): every entity left in the store is supposed to keep
`devicesCount` equal to the sum of the device entries of its action-map
fragments.  Evaluating the code on a failed edit of `s9`: the optimistic
entity the interceptor installs computes its devices count from the
mis-named `args[0].actions` field (edit parameters carry `action`), getting
0, and the failed transaction's rollback hook throws before restoring
anything (claim C1's bug), so the store is left holding an entity with a
two-device action map and `devicesCount = 0`. -/
theorem claim_C9_devicesCount_invariant_violated :
    (lookupKey c9Txn.store.schedulesByID "s9").map (fun e => e.devicesCount) = some 0
    ∧ (lookupKey c9Txn.store.schedulesByID "s9").map scheduleDevicesSum = some 2
    ∧ (lookupKey c9Txn.store.schedulesByID "s9").map
        (fun e => decide (e.devicesCount = scheduleDevicesSum e)) = some false :=
  ⟨rfl, rfl, rfl⟩

/-- The C2 schedule entity: node `n1` with a one-device blob, current
trigger list `[trg420]`, default shared fields. -/
def c2Sched : ScheduleEntity :=
  { id := "s2", name := .str "A", nodes := ["n1"], enabled := .bool false,
    triggers := .arr [trg420], action := [("n1", blobL)], devicesCount := 1,
    info := .null, flags := .null, validity := .null, outOfSyncMeta := [],
    callbackUpdateOperation := [] }

/-- Claim C2 counterexample: node `n1` is present in both maps with the
identical action blob and identical name/info/flags/validity, while the
proposed trigger list `[]` differs from the current `[trg420]`; the claim
demands EDIT for any shared-field difference, but the resolver answers
NO_CHANGE — its trigger comparison is the one-directional containment
`compareArrays(proposed, current)`, which every empty proposed list
passes. -/
theorem claim_C2_counterexample :
    Schedule.determineEditOperation c2Sched "n1" (.obj [("n1", blobL)]) (.str "A")
        (.arr []) .null .null .null = .ok .NO_CHANGE
    ∧ c2Sched.triggers = .arr [trg420]
    ∧ (JVal.arr [] = JVal.arr [trg420] → False) :=
  ⟨rfl, rfl, fun h => by injection h with h'; exact absurd h' (by simp)⟩

/-- Claim C3 counterexample: merging two nodes that both host scene `s1`
but disagree on `name` ("Evening" on node1, "Evening Lights" on node2) is
required by the claim to record `outOfSyncMeta.node2 = (name: "Evening
Lights")`.  The code's scene merge records nothing: its complete output is
the single ledger-free entity below, and it is *identical* to the output
for a node2 that agrees on the name — the divergent "Evening Lights" value
is nowhere in the resulting store, so no out-of-sync metadata exists for
scenes. -/
theorem claim_C3_counterexample :
    transformNodeListToScenes
        [evSceneNode "node1" "Evening", evSceneNode "node2" "Evening Lights"]
      = transformNodeListToScenes
        [evSceneNode "node1" "Evening", evSceneNode "node2" "Evening"]
    ∧ transformNodeListToScenes
        [evSceneNode "node1" "Evening", evSceneNode "node2" "Evening Lights"]
      = .ok [("s1",
          { id := "s1", name := .str "Evening", info := .undefined,
            nodes := ["node1", "node2"],
            actions := [("node1", blobL), ("node2", blobL)],
            devicesCount := 2, callbackUpdateOperation := [] })] :=
  ⟨rfl, rfl⟩

/-- Claim C6: for every Scene and node id present (truthily, as the source
tests presence) in both the current and the proposed actions map, the scene
intent resolver returns EDIT — no content comparison, no NO_CHANGE outcome.
The `nodeId ≠ ""` hypothesis is the resolver's own falsy-node-id guard,
which throws before the maps are consulted. -/
theorem claim_C6_scene_edit_unconditional (s : SceneEntity) (nodeId : String)
    (newActions : JVal) (hn : nodeId ≠ "")
    (hOld : truthy ((lookupKey s.actions nodeId).getD .undefined) = true)
    (hNew : truthy (jvGet newActions nodeId) = true) :
    Scene.determineEditOperation s nodeId newActions = .ok .EDIT := by
  unfold Scene.determineEditOperation
  simp [hn, hOld, hNew]

/-- The C6 witness scene: node `n1` present in the current actions map. -/
def c6Scene : SceneEntity :=
  { id := "sc1", name := .str "Evening", info := .str "", nodes := ["n1"],
    actions := [("n1", blobL)], devicesCount := 1, callbackUpdateOperation := [] }

/-- Witness for claim C6 at a concrete scene: `n1` hosts a blob in both the
current map and the proposed map (with a different blob), and the resolver
answers EDIT. -/
theorem claim_C6_witness :
    Scene.determineEditOperation c6Scene "n1" (.obj [("n1", blob2)]) = .ok .EDIT :=
  claim_C6_scene_edit_unconditional c6Scene "n1" (.obj [("n1", blob2)])
    (by decide) (by rfl) (by rfl)

/-- Claim C8: the sync/merge is idempotent — running `clear` followed by the
Fragment Merge a second time on the same unchanged node list reproduces the
same store (same entities: shared fields, nodes lists, action maps,
devicesCount and out-of-sync ledgers), with no duplicate accumulation,
because the sync clears the map and the merge output depends only on the
node list. -/
theorem claim_C8_sync_idempotent (registry : List ESPRMNodeRec)
    (nodeIds : List String) (st st' : ScheduleStoreState)
    (h : syncSchedulesFromNodes registry nodeIds st = .ok st') :
    syncSchedulesFromNodes registry nodeIds st' = .ok st' := by
  unfold syncSchedulesFromNodes at h ⊢
  cases htr : transformNodeListToSchedules (registry.filter fun n => nodeIds.contains n.id) with
  | error e => simp only [htr] at h; exact Except.noConfusion h
  | ok m =>
    simp only [htr, Except.ok.injEq] at h ⊢
    subst h
    rfl

/-- The two-node Evening registry (both nodes host schedule `s1`). -/
def evRegistry : List ESPRMNodeRec :=
  [evNode "node1" "Evening", evNode "node2" "Evening Lights"]

/-- The merged Evening schedule entity (what the Fragment Merge produces
from `evRegistry`). -/
def evMergedSchedule : ScheduleEntity :=
  { id := "s1", name := .str "Evening", nodes := ["node1", "node2"],
    enabled := .bool false, triggers := .arr [trg420],
    action := [("node1", blobL), ("node2", blobL)], devicesCount := 2,
    info := .null, flags := .null, validity := .null,
    outOfSyncMeta := [("node2", .obj [("name", .str "Evening Lights")])],
    callbackUpdateOperation := [] }

/-- The store a sync over `evRegistry` produces. -/
def evSyncedStore : ScheduleStoreState :=
  { schedulesByID := [("s1", evMergedSchedule)] }

/-- Witness for claim C8: a second sync over the two Evening nodes
reproduces exactly the store the first sync built. -/
theorem claim_C8_witness :
    syncSchedulesFromNodes evRegistry ["node1", "node2"] evSyncedStore = .ok evSyncedStore :=
  claim_C8_sync_idempotent evRegistry ["node1", "node2"]
    { schedulesByID := [] } evSyncedStore rfl

/-- `compareArraysJV` on two genuine arrays never throws and agrees with the
list-level `compareArrays`. -/
theorem compareArraysJV_arr (ts cts : List JVal) :
    compareArraysJV (.arr ts) (.arr cts) = .ok (compareArrays ts cts) := by
  cases ts with
  | nil => simp [compareArraysJV, compareArrays]
  | cons t ts' =>
    cases cts with
    | nil => simp [compareArraysJV, compareArrays]
    | cons c cts' => simp [compareArraysJV, compareArrays]

/-- The amended claim C2's classification table, written from the amended
claim's words: absent/present → ADD, present/absent → REMOVE, present in
both with unequal blobs → EDIT; otherwise EDIT exactly when the name, info
or flags differ strictly, the validity differs deeply, or the proposed
trigger list fails the one-directional containment check against the
current one; otherwise NO_CHANGE.  Presence is the truthiness of the map
entry, as the resolver tests it. -/
def specEditClassification (oldPresent newPresent blobsEqual nameSame
    trigContained infoSame flagsSame validitySame : Bool) : ScheduleOperation :=
  if oldPresent && !newPresent then .REMOVE
  else if !oldPresent && newPresent then .ADD
  else if oldPresent && newPresent && !blobsEqual then .EDIT
  else if !nameSame || !trigContained || !infoSame || !flagsSame || !validitySame then .EDIT
  else .NO_CHANGE

/-- Claim C2 (amended): for every schedule, non-falsy node id, proposed
action map and proposed shared fields (with array-valued trigger lists, as
validation guarantees), the resolver returns — without throwing and without
touching either map (it is a pure function of them) — exactly the operation
of the four-way table `specEditClassification`: the ADD/REMOVE/deep-EDIT
cases as the claim states them, and, for identical blobs, EDIT precisely
when name/info/flags differ strictly, validity differs deeply, or the
proposed trigger list fails the one-directional `compareArrays` containment
check (an empty or subset proposed list passes it and so does not force
EDIT), else NO_CHANGE. -/
theorem claim_C2_resolver_characterization (s : ScheduleEntity) (nodeId : String)
    (newaction scheduleName info flags validity : JVal) (ts cts : List JVal)
    (hn : nodeId ≠ "") (hcts : s.triggers = .arr cts) :
    Schedule.determineEditOperation s nodeId newaction scheduleName (.arr ts)
        info flags validity
      = .ok (specEditClassification
          (truthy ((lookupKey s.action nodeId).getD .undefined))
          (truthy (jvGet newaction nodeId))
          (isEqual ((lookupKey s.action nodeId).getD .undefined) (jvGet newaction nodeId))
          (primEq scheduleName s.name)
          (compareArrays ts cts)
          (primEq info s.info)
          (primEq flags s.flags)
          (isEqual validity s.validity)) := by
  unfold Schedule.determineEditOperation specEditClassification
  rw [if_neg hn, hcts, compareArraysJV_arr]
  cases truthy ((lookupKey s.action nodeId).getD .undefined) <;>
    cases truthy (jvGet newaction nodeId) <;>
    cases isEqual ((lookupKey s.action nodeId).getD .undefined) (jvGet newaction nodeId) <;>
    cases primEq scheduleName s.name <;>
    cases compareArrays ts cts <;>
    cases primEq info s.info <;>
    cases primEq flags s.flags <;>
    cases isEqual validity s.validity <;>
    rfl

/-- Witness for claim C2 at the counterexample input: node present in both
maps with the identical blob, identical scalar fields, proposed trigger
list empty against a one-element current list — the table (and the code)
answer NO_CHANGE. -/
theorem claim_C2_witness :
    Schedule.determineEditOperation c2Sched "n1" (.obj [("n1", blobL)]) (.str "A")
        (.arr []) .null .null .null = .ok .NO_CHANGE :=
  claim_C2_resolver_characterization c2Sched "n1" (.obj [("n1", blobL)]) (.str "A")
    .null .null .null [] [trg420] (by decide) rfl

/-- The sync check only reads the six shared fields, so entities agreeing on
them are checked identically. -/
theorem isScheduleInSync_sharedEq (e e' : ScheduleEntity) (frag : JVal)
    (h1 : e'.name = e.name) (h2 : e'.enabled = e.enabled)
    (h3 : e'.triggers = e.triggers) (h4 : e'.validity = e.validity)
    (h5 : e'.flags = e.flags) (h6 : e'.info = e.info) :
    isScheduleInSync e' frag scheduleSyncKeys = isScheduleInSync e frag scheduleSyncKeys := by
  unfold isScheduleInSync scheduleSyncKeys
  simp only [List.foldl, scheduleFieldByKey]
  rw [h1, h2, h3, h4, h5, h6]

/-- The Evening schedule entity after merging node1 only. -/
def evMergedOne : ScheduleEntity :=
  { id := "s1", name := .str "Evening", nodes := ["node1"],
    enabled := .bool false, triggers := .arr [trg420],
    action := [("node1", blobL)], devicesCount := 1,
    info := .null, flags := .null, validity := .null,
    outOfSyncMeta := [], callbackUpdateOperation := [] }

/-- Claim C3 (amended): when a fragment's entity id was already seen on an
earlier node, (i) the schedule merge keeps the first-seen value of every
shared field (name/enabled/triggers/validity/flags/info) — the merge step
only extends nodes/action/devicesCount — and records under
`outOfSyncMeta.nodeId` exactly the fields of the sync check's divergence
map (arrays compared by the one-directional containment `compareArrays`,
object-typed values by `JSON.stringify`, scalars by strict inequality with
nullish new values never recorded), leaving the ledger untouched when that
map is empty; (ii) the scene merge also keeps the first-seen shared values
but records no out-of-sync metadata at all — its step only extends
nodes/actions/devicesCount; (iii) concretely, merging the two Evening nodes
yields a schedule named "Evening" with
`outOfSyncMeta.node2 = (name: "Evening Lights")`, while the corresponding
scene merge (see the counterexample) records nothing. -/
theorem claim_C3_first_seen_wins_and_ledger :
    (∀ (acc : List (String × ScheduleEntity)) (nodeId : String) (frag : JVal)
       (e : ScheduleEntity) (acc' : List (String × ScheduleEntity)),
       lookupKey acc (jsKeyOf (jvGet frag "id")) = some e →
       mergeScheduleFragment acc nodeId frag = .ok acc' →
       ∃ e', acc' = setKey acc (jsKeyOf (jvGet frag "id")) e'
         ∧ e'.name = e.name ∧ e'.enabled = e.enabled ∧ e'.triggers = e.triggers
         ∧ e'.validity = e.validity ∧ e'.flags = e.flags ∧ e'.info = e.info
         ∧ e'.nodes = e.nodes ++ [nodeId]
         ∧ e'.action = setKey e.action nodeId (jvGet frag "action")
         ∧ e'.outOfSyncMeta =
             (match isScheduleInSync e frag scheduleSyncKeys with
              | some meta => setKey e.outOfSyncMeta nodeId (.obj meta)
              | none => e.outOfSyncMeta))
    ∧ (∀ (acc : List (String × SceneEntity)) (nodeId : String) (frag : JVal)
        (e : SceneEntity) (acc' : List (String × SceneEntity)),
        lookupKey acc (jsKeyOf (jvGet frag "id")) = some e →
        mergeSceneFragment acc nodeId frag = .ok acc' →
        ∃ ks, jvObjectKeysE (jvGet frag "action") = .ok ks
          ∧ acc' = setKey acc (jsKeyOf (jvGet frag "id"))
              { e with nodes := e.nodes ++ [nodeId],
                       actions := setKey e.actions nodeId (jvGet frag "action"),
                       devicesCount := e.devicesCount + ks.length })
    ∧ transformNodeListToSchedules [evNode "node1" "Evening", evNode "node2" "Evening Lights"]
        = .ok [("s1", evMergedSchedule)] := by
  refine ⟨?_, ?_, rfl⟩
  · intro acc nodeId frag e acc' hl hm
    unfold mergeScheduleFragment at hm
    simp only [hl] at hm
    cases hk : jvObjectKeysE (jvGet frag "action") with
    | error err => simp only [hk] at hm; exact Except.noConfusion hm
    | ok ks =>
      simp only [hk] at hm
      cases hs : isScheduleInSync
          { e with nodes := e.nodes ++ [nodeId],
                   action := setKey e.action nodeId (jvGet frag "action"),
                   devicesCount := e.devicesCount + ks.length }
          frag scheduleSyncKeys with
      | none =>
        simp only [hs, Except.ok.injEq] at hm
        subst hm
        refine ⟨_, rfl, rfl, rfl, rfl, rfl, rfl, rfl, rfl, rfl, ?_⟩
        rw [← isScheduleInSync_sharedEq e
          { e with nodes := e.nodes ++ [nodeId],
                   action := setKey e.action nodeId (jvGet frag "action"),
                   devicesCount := e.devicesCount + ks.length } frag rfl rfl rfl rfl rfl rfl,
          hs]
      | some meta =>
        simp only [hs, Except.ok.injEq] at hm
        subst hm
        refine ⟨_, rfl, rfl, rfl, rfl, rfl, rfl, rfl, rfl, rfl, ?_⟩
        rw [← isScheduleInSync_sharedEq e
          { e with nodes := e.nodes ++ [nodeId],
                   action := setKey e.action nodeId (jvGet frag "action"),
                   devicesCount := e.devicesCount + ks.length } frag rfl rfl rfl rfl rfl rfl,
          hs]
  · intro acc nodeId frag e acc' hl hm
    unfold mergeSceneFragment at hm
    simp only [hl] at hm
    cases hk : jvObjectKeysE (jvGet frag "action") with
    | error err => simp only [hk] at hm; exact Except.noConfusion hm
    | ok ks =>
      simp only [hk, Except.ok.injEq] at hm
      subst hm
      exact ⟨ks, rfl, rfl⟩

/-- Witness for claim C3 at the Evening data: merging node2's divergent
fragment into the accumulator seeded by node1 keeps the first-seen shared
fields and records the name divergence for node2. -/
theorem claim_C3_witness :
    ∃ e', [("s1", evMergedSchedule)] = setKey [("s1", evMergedOne)]
        (jsKeyOf (jvGet (evFrag "Evening Lights") "id")) e'
      ∧ e'.name = evMergedOne.name ∧ e'.enabled = evMergedOne.enabled
      ∧ e'.triggers = evMergedOne.triggers ∧ e'.validity = evMergedOne.validity
      ∧ e'.flags = evMergedOne.flags ∧ e'.info = evMergedOne.info
      ∧ e'.nodes = evMergedOne.nodes ++ ["node2"]
      ∧ e'.action = setKey evMergedOne.action "node2"
          (jvGet (evFrag "Evening Lights") "action")
      ∧ e'.outOfSyncMeta =
          (match isScheduleInSync evMergedOne (evFrag "Evening Lights") scheduleSyncKeys with
           | some meta => setKey evMergedOne.outOfSyncMeta "node2" (.obj meta)
           | none => evMergedOne.outOfSyncMeta) :=
  claim_C3_first_seen_wins_and_ledger.1 [("s1", evMergedOne)] "node2"
    (evFrag "Evening Lights") evMergedOne [("s1", evMergedSchedule)] rfl rfl

/-- Writing one key leaves every other key's lookup unchanged. -/
theorem lookupKey_setKey_ne {α : Type} (l : List (String × α)) (k m : String)
    (v : α) (h : k ≠ m) : lookupKey (setKey l k v) m = lookupKey l m := by
  induction l with
  | nil => simp [setKey, lookupKey, h]
  | cons kv rest ih =>
    obtain ⟨k', w⟩ := kv
    by_cases hk : k' = k
    · subst hk; simp [setKey, lookupKey, h]
    · simp [setKey, lookupKey, hk, ih]

/-- Whether a classification outcome is a successful NO_CHANGE. -/
def isNoChangeCls (r : Except String ScheduleOperation) : Bool :=
  match r with
  | .ok .NO_CHANGE => true
  | _ => false

namespace Schedule

/-- The per-node classification an EDIT-class `#operations` call performs,
with the destructuring defaults already applied (a statement-side
abbreviation of exactly the resolution `operations` performs). -/
def editClassification (s : ScheduleEntity) (p : OperationParams) (n : String) :
    Except String ScheduleOperation :=
  determineEditOperation s n
    (if jvIsUndef p.action then .obj s.action else p.action)
    (if jvIsUndef p.scheduleName then s.name else p.scheduleName)
    (if jvIsUndef p.triggers then s.triggers else p.triggers)
    (if jvIsUndef p.info then s.info else p.info)
    (if jvIsUndef p.flags then s.flags else p.flags)
    (if jvIsUndef p.validity then s.validity else p.validity)

/-- A successfully generated payload is addressed to the node it was
generated for. -/
theorem generatePayload_nodeId {type : ScheduleOperation} {action : JVal}
    {nodeId : String} {triggers : JVal} {scheduleId : String}
    {scheduleName info flags validity : JVal} {pm : PayloadMsg}
    (h : generatePayload type action nodeId triggers scheduleId scheduleName
          info flags validity = .ok pm) :
    pm.nodeId = nodeId := by
  unfold generatePayload at h
  by_cases hn : nodeId = "" <;> cases type <;> simp [hn] at h <;>
    simp [← h]

/-- An EDIT step on a node classified NO_CHANGE leaves the reduce state
unchanged. -/
theorem operationsStep_edit_noChange (s : ScheduleEntity)
    (scheduleName triggers action info flags validity : JVal)
    (st : ReduceState) (n : String)
    (hcls : determineEditOperation s n action scheduleName triggers info flags validity
        = .ok .NO_CHANGE) :
    operationsStep s .EDIT scheduleName triggers action info flags validity st n
      = .ok st := by
  unfold operationsStep
  simp [hcls]

/-- An EDIT step on a node with an active classification appends exactly one
payload and records the operation for that node. -/
theorem operationsStep_edit_active (s : ScheduleEntity)
    (scheduleName triggers action info flags validity : JVal)
    (st : ReduceState) (n : String) (op : ScheduleOperation) (av : JVal)
    (pm : PayloadMsg)
    (hcls : determineEditOperation s n action scheduleName triggers info flags validity
        = .ok op)
    (hop : op ≠ .NO_CHANGE) (hga : jvGetE action n = .ok av)
    (hgp : generatePayload op av n triggers s.id scheduleName info flags validity = .ok pm) :
    operationsStep s .EDIT scheduleName triggers action info flags validity st n
      = .ok { payloads := st.payloads ++ [pm], cb := setKey st.cb n op } := by
  unfold operationsStep
  simp [hcls, hop, hga, hgp]

/-- A successful EDIT step produces either the unchanged state (NO_CHANGE)
or the one-payload extension of `operationsStep_edit_active`. -/
theorem operationsStep_edit_cases (s : ScheduleEntity)
    (scheduleName triggers action info flags validity : JVal)
    (st st' : ReduceState) (n : String)
    (h : operationsStep s .EDIT scheduleName triggers action info flags validity st n
        = .ok st') :
    (determineEditOperation s n action scheduleName triggers info flags validity
        = .ok .NO_CHANGE ∧ st' = st)
    ∨ (∃ op av pm,
        determineEditOperation s n action scheduleName triggers info flags validity = .ok op
        ∧ op ≠ .NO_CHANGE ∧ jvGetE action n = .ok av
        ∧ generatePayload op av n triggers s.id scheduleName info flags validity = .ok pm
        ∧ st' = { payloads := st.payloads ++ [pm], cb := setKey st.cb n op }) := by
  unfold operationsStep at h
  rw [if_pos rfl] at h
  split at h
  next e heq => exact Except.noConfusion h
  next op heq =>
    split at h
    next hop =>
      cases h
      exact Or.inl ⟨hop ▸ heq, rfl⟩
    next hop =>
      split at h
      next e heq2 => exact Except.noConfusion h
      next av heq2 =>
        split at h
        next e heq3 => exact Except.noConfusion h
        next pm heq3 =>
          cases h
          exact Or.inr ⟨op, av, pm, heq, hop, heq2, heq3, rfl⟩

/-- Characterization of the EDIT reduce: the payloads appended are exactly
one per node not classified NO_CHANGE, addressed to that node, in node
order; and `callbackUpdateOperation` entries of nodes outside the processed
list are untouched. -/
theorem operationsReduce_edit_spec (s : ScheduleEntity)
    (scheduleName triggers action info flags validity : JVal)
    (nodes : List String) (st0 st1 : ReduceState)
    (h : operationsReduce s .EDIT scheduleName triggers action info flags validity
          nodes st0 = .ok st1) :
    st1.payloads.map (·.nodeId)
      = st0.payloads.map (·.nodeId)
        ++ nodes.filter (fun n => !isNoChangeCls
            (determineEditOperation s n action scheduleName triggers info flags validity))
    ∧ (∀ m, m ∉ nodes → lookupKey st1.cb m = lookupKey st0.cb m) := by
  induction nodes generalizing st0 with
  | nil =>
    unfold operationsReduce at h
    cases h
    simp
  | cons n rest ih =>
    unfold operationsReduce at h
    cases hstep : operationsStep s .EDIT scheduleName triggers action info flags validity st0 n with
    | error e => rw [hstep] at h; exact Except.noConfusion h
    | ok st0' =>
      rw [hstep] at h
      obtain ⟨hp, hcb⟩ := ih st0' h
      rcases operationsStep_edit_cases s scheduleName triggers action info flags validity
          st0 st0' n hstep with ⟨hcls, hst⟩ | ⟨op, av, pm, hcls, hop, hga, hgp, hst⟩
      · subst hst
        refine ⟨?_, ?_⟩
        · rw [hp]
          simp [List.filter_cons, hcls, isNoChangeCls]
        · intro m hm
          exact hcb m (fun hmem => hm (List.mem_cons_of_mem n hmem))
      · subst hst
        refine ⟨?_, ?_⟩
        · rw [hp]
          have hpn : pm.nodeId = n := generatePayload_nodeId hgp
          have hfc : (!isNoChangeCls (Except.ok op)) = true := by
            cases op <;> simp [isNoChangeCls] at hop ⊢
          simp [List.filter_cons, hcls, hfc, hpn]
        · intro m hm
          rw [hcb m (fun hmem => hm (List.mem_cons_of_mem n hmem))]
          exact lookupKey_setKey_ne _ n m op
            (fun he => hm (he ▸ List.mem_cons_self n rest))

end Schedule

/-- Claim C5: in a Schedule EDIT-class mutation over a node set, nodes
classified NO_CHANGE are dropped from the outgoing batch; when the batch
empties, the operation resolves locally — the outcome is the synthesized
`(node_id, success, "")` list over the *original* node set, with no remote
call — and this happens exactly when every node is classified NO_CHANGE;
otherwise the outcome is a single batched remote call carrying exactly one
payload per remaining node, in node order, addressed to those nodes. -/
theorem claim_C5_no_change_dropped (s : ScheduleEntity) (p : Schedule.OperationParams)
    (nodes : List String) (hn : p.nodes = some nodes)
    (s' : ScheduleEntity) (out : Schedule.OpOutcome)
    (h : Schedule.operations s .EDIT p = .ok (s', out)) :
    ((∀ n ∈ nodes, isNoChangeCls (Schedule.editClassification s p n) = true) →
       out = .localResponse (nodes.map fun n =>
         { node_id := n, status := SUCCESS, description := "" }))
    ∧ (∀ rs, out = .localResponse rs →
         rs = nodes.map (fun n => { node_id := n, status := SUCCESS, description := "" })
         ∧ ∀ n ∈ nodes, isNoChangeCls (Schedule.editClassification s p n) = true)
    ∧ (∀ ps, out = .remoteCall ps →
         ps.map (·.nodeId)
           = nodes.filter (fun n => !isNoChangeCls (Schedule.editClassification s p n))
         ∧ ps ≠ []) := by
  unfold Schedule.operations at h
  simp only [hn, Option.getD_some] at h
  cases hred : Schedule.operationsReduce s .EDIT
      (if jvIsUndef p.scheduleName then s.name else p.scheduleName)
      (if jvIsUndef p.triggers then s.triggers else p.triggers)
      (if jvIsUndef p.action then JVal.obj s.action else p.action)
      (if jvIsUndef p.info then s.info else p.info)
      (if jvIsUndef p.flags then s.flags else p.flags)
      (if jvIsUndef p.validity then s.validity else p.validity)
      nodes { payloads := [], cb := s.callbackUpdateOperation } with
  | error e => simp only [hred] at h; exact Except.noConfusion h
  | ok st =>
    simp only [hred] at h
    obtain ⟨hp, _⟩ := Schedule.operationsReduce_edit_spec s _ _ _ _ _ _ nodes _ st hred
    simp only [List.map_nil, List.nil_append] at hp
    simp only [Schedule.editClassification]
    by_cases hemp : st.payloads.isEmpty
    · rw [if_pos hemp] at h
      cases h
      have hpl : st.payloads = [] := List.isEmpty_iff.mp hemp
      rw [hpl] at hp
      have hfil := hp.symm
      simp only [List.map_nil] at hfil
      refine ⟨fun _ => rfl, fun rs hrs => ?_, fun ps hps => ?_⟩
      · cases hrs
        refine ⟨rfl, fun n hn' => ?_⟩
        have := List.filter_eq_nil_iff.mp hfil n hn'
        simpa using this
      · exact absurd hps (by simp)
    · rw [if_neg hemp] at h
      cases h
      have hne : st.payloads ≠ [] := fun he => hemp (by simp [he])
      refine ⟨fun hall => ?_, fun rs hrs => absurd hrs (by simp), fun ps hps => ?_⟩
      · exfalso
        have hfil : nodes.filter (fun n => !isNoChangeCls
            (Schedule.determineEditOperation s n
              (if jvIsUndef p.action then JVal.obj s.action else p.action)
              (if jvIsUndef p.scheduleName then s.name else p.scheduleName)
              (if jvIsUndef p.triggers then s.triggers else p.triggers)
              (if jvIsUndef p.info then s.info else p.info)
              (if jvIsUndef p.flags then s.flags else p.flags)
              (if jvIsUndef p.validity then s.validity else p.validity))) = [] := by
          apply List.filter_eq_nil_iff.mpr
          intro n hn'
          have := hall n hn'
          simp only [Schedule.editClassification] at this
          simp [this]
        rw [hfil] at hp
        exact hne (List.map_eq_nil_iff.mp hp)
      · cases hps
        exact ⟨hp, hne⟩

/-- The all-NO_CHANGE edit parameters over `c2Sched` used by the C5
witness. -/
def c5Params : Schedule.OperationParams :=
  { scheduleName := .str "A", triggers := .arr [trg420], action := .obj [("n1", blobL)],
    nodes := some ["n1"], info := .null, flags := .null, validity := .null }

/-- Witness for claim C5: an edit that changes nothing on the single node
resolves to the locally synthesized success list and satisfies all three
clauses of the theorem at that input. -/
theorem claim_C5_witness :
    ((∀ n ∈ ["n1"], isNoChangeCls (Schedule.editClassification c2Sched c5Params n) = true) →
       Schedule.OpOutcome.localResponse
           [{ node_id := "n1", status := SUCCESS, description := "" }]
         = .localResponse (["n1"].map fun n =>
             { node_id := n, status := SUCCESS, description := "" }))
    ∧ (∀ rs, Schedule.OpOutcome.localResponse
           [{ node_id := "n1", status := SUCCESS, description := "" }] = .localResponse rs →
         rs = ["n1"].map (fun n => { node_id := n, status := SUCCESS, description := "" })
         ∧ ∀ n ∈ ["n1"], isNoChangeCls (Schedule.editClassification c2Sched c5Params n) = true)
    ∧ (∀ ps, Schedule.OpOutcome.localResponse
           [{ node_id := "n1", status := SUCCESS, description := "" }] = .remoteCall ps →
         ps.map (·.nodeId)
           = ["n1"].filter (fun n => !isNoChangeCls (Schedule.editClassification c2Sched c5Params n))
         ∧ ps ≠ []) :=
  claim_C5_no_change_dropped c2Sched c5Params ["n1"] rfl c2Sched
    (.localResponse [{ node_id := "n1", status := SUCCESS, description := "" }]) rfl

/-- A lookup succeeds exactly when the key is among the entry keys. -/
theorem lookupKey_isSome_iff {α : Type} (l : List (String × α)) (m : String) :
    (lookupKey l m).isSome = true ↔ m ∈ keysOfEntries l := by
  induction l with
  | nil => simp [lookupKey, keysOfEntries]
  | cons kv rest ih =>
    obtain ⟨k, v⟩ := kv
    by_cases hk : k = m
    · subst hk; simp [lookupKey, keysOfEntries]
    · simp [lookupKey, keysOfEntries, hk, ih, Ne.symm hk]

/-- Key membership after a single JS property write. -/
theorem mem_keys_setKey {α : Type} (l : List (String × α)) (k m : String) (v : α) :
    m ∈ keysOfEntries (setKey l k v) ↔ m ∈ keysOfEntries l ∨ m = k := by
  induction l with
  | nil => simp [setKey, keysOfEntries]
  | cons kv rest ih =>
    obtain ⟨k', w⟩ := kv
    by_cases hk : k' = k
    · subst hk
      by_cases hm : k' = m <;> (simp [setKey, keysOfEntries, hm, eq_comm]; try tauto)
    · simp only [setKey, if_neg hk, keysOfEntries, List.map_cons, List.mem_cons]
      rw [show keysOfEntries (setKey rest k v) = List.map Prod.fst (setKey rest k v) from rfl] at ih
      rw [show keysOfEntries rest = List.map Prod.fst rest from rfl] at ih
      rw [ih]
      tauto

/-- Key membership after folding JS property writes over an entry list. -/
theorem mem_keys_foldl_setKey {α : Type} (entries : List (String × α))
    (base : List (String × α)) (m : String) :
    m ∈ keysOfEntries (entries.foldl (fun acc kv => setKey acc kv.1 kv.2) base)
      ↔ m ∈ keysOfEntries base ∨ m ∈ keysOfEntries entries := by
  induction entries generalizing base with
  | nil => simp [keysOfEntries]
  | cons kv rest ih =>
    rw [List.foldl_cons, ih, mem_keys_setKey]
    simp [keysOfEntries, eq_comm]
    tauto

/-- Membership in the node set the schedule `#edit` computes is exactly
union membership over the two action maps' key sets. -/
theorem scheduleEditNodes_mem (a : JVal) (s : ScheduleEntity) (m : String) :
    m ∈ Schedule.editNodes a s
      ↔ jvHas a m = true ∨ (lookupKey s.action m).isSome = true := by
  unfold Schedule.editNodes jvSpreadOnto
  rw [mem_keys_foldl_setKey, mem_keys_foldl_setKey]
  simp only [keysOfEntries, List.map_nil, List.not_mem_nil, false_or]
  rw [jvHas, lookupKey_isSome_iff, lookupKey_isSome_iff]
  simp [keysOfEntries]

/-- Membership in the node set the scene `#edit` computes. -/
theorem sceneEditNodes_mem (a : JVal) (s : SceneEntity) (m : String) :
    m ∈ Scene.editNodes a s
      ↔ jvHas a m = true ∨ (lookupKey s.actions m).isSome = true := by
  unfold Scene.editNodes jvSpreadOnto
  rw [mem_keys_foldl_setKey, mem_keys_foldl_setKey]
  simp only [keysOfEntries, List.map_nil, List.not_mem_nil, false_or]
  rw [jvHas, lookupKey_isSome_iff, lookupKey_isSome_iff]
  simp [keysOfEntries]

/-- A successful scene EDIT step resolves the per-node operation, records
it, and appends exactly the payload addressed to that node. -/
theorem sceneOperationsStep_edit_cases (s : SceneEntity)
    (sceneName actions info : JVal) (st st' : Scene.MapState) (n : String)
    (h : Scene.operationsStep s .EDIT sceneName actions info st n = .ok st') :
    ∃ op av, Scene.determineEditOperation s n actions = .ok op
      ∧ jvGetE actions n = .ok av
      ∧ st' = { payloads := st.payloads
                  ++ [Scene.generatePayload av n op sceneName (.str s.id) info],
                cb := setKey st.cb n op } := by
  unfold Scene.operationsStep at h
  rw [if_pos rfl] at h
  split at h
  next e heq => exact Except.noConfusion h
  next op heq =>
    split at h
    next e heq2 => exact Except.noConfusion h
    next av heq2 =>
      cases h
      exact ⟨op, av, heq, heq2, rfl⟩

/-- Characterization of the scene EDIT reduce: one payload per node (no
drops), addressed to the nodes in order; ledger entries outside the node
list untouched. -/
theorem sceneOperationsReduce_edit_spec (s : SceneEntity)
    (sceneName actions info : JVal) (nodes : List String)
    (st0 st1 : Scene.MapState)
    (h : Scene.operationsReduce s .EDIT sceneName actions info nodes st0 = .ok st1) :
    st1.payloads.map (·.nodeId) = st0.payloads.map (·.nodeId) ++ nodes
    ∧ (∀ m, m ∉ nodes → lookupKey st1.cb m = lookupKey st0.cb m) := by
  induction nodes generalizing st0 with
  | nil =>
    unfold Scene.operationsReduce at h
    cases h
    simp
  | cons n rest ih =>
    unfold Scene.operationsReduce at h
    cases hstep : Scene.operationsStep s .EDIT sceneName actions info st0 n with
    | error e => rw [hstep] at h; exact Except.noConfusion h
    | ok st0' =>
      rw [hstep] at h
      obtain ⟨hp, hcb⟩ := ih st0' h
      obtain ⟨op, av, _, _, hst⟩ :=
        sceneOperationsStep_edit_cases s sceneName actions info st0 st0' n hstep
      subst hst
      refine ⟨?_, ?_⟩
      · rw [hp]; simp [Scene.generatePayload]
      · intro m hm
        rw [hcb m (fun hmem => hm (List.mem_cons_of_mem n hmem))]
        exact lookupKey_setKey_ne _ n m op
          (fun he => hm (he ▸ List.mem_cons_self n rest))

/-- Claim C10: `edit` computes the node set it classifies and fans payloads
out to as the union of the key sets of the proposed action map and the
entity's current action map — not from the entity's `nodes` list — for both
Schedule and Scene.  Consequently a node id absent from both maps is never
in that set, its `callbackUpdateOperation` entry is untouched by the edit,
and no emitted payload is addressed to it. -/
theorem claim_C10_edit_fans_out_over_action_union :
    (∀ (s : ScheduleEntity) (args : JVal) (n : String),
      (n ∈ Schedule.editNodes (jvGet args "action") s
         ↔ jvHas (jvGet args "action") n = true ∨ (lookupKey s.action n).isSome = true)
      ∧ (jvHas (jvGet args "action") n = false →
         (lookupKey s.action n).isSome = false →
         ∀ s' out, Schedule.edit s args = .ok (s', out) →
           lookupKey s'.callbackUpdateOperation n = lookupKey s.callbackUpdateOperation n
           ∧ ∀ ps, out = .remoteCall ps → ∀ pm ∈ ps, pm.nodeId ≠ n))
    ∧ (∀ (s : SceneEntity) (args : JVal) (n : String),
      (n ∈ Scene.editNodes (jvGet args "actions") s
         ↔ jvHas (jvGet args "actions") n = true ∨ (lookupKey s.actions n).isSome = true)
      ∧ (jvHas (jvGet args "actions") n = false →
         (lookupKey s.actions n).isSome = false →
         ∀ s' ps, Scene.edit s args = .ok (s', ps) →
           lookupKey s'.callbackUpdateOperation n = lookupKey s.callbackUpdateOperation n
           ∧ ∀ pm ∈ ps, pm.nodeId ≠ n)) := by
  constructor
  · intro s args n
    refine ⟨scheduleEditNodes_mem _ s n, ?_⟩
    intro hhas hlook s' out h
    have hnm : n ∉ Schedule.editNodes (jvGet args "action") s := by
      rw [scheduleEditNodes_mem]
      simp [hhas, hlook]
    unfold Schedule.edit Schedule.operations at h
    simp only [Option.getD_some] at h
    cases hred : Schedule.operationsReduce s .EDIT
        (if jvIsUndef (jvGet args "name") then s.name else jvGet args "name")
        (if jvIsUndef (jvGet args "triggers") then s.triggers else jvGet args "triggers")
        (if jvIsUndef (jvGet args "action") then JVal.obj s.action else jvGet args "action")
        (if jvIsUndef (jvGet args "info") then s.info else jvGet args "info")
        (if jvIsUndef (jvGet args "flags") then s.flags else jvGet args "flags")
        (if jvIsUndef (jvGet args "validity") then s.validity else jvGet args "validity")
        (Schedule.editNodes (jvGet args "action") s)
        { payloads := [], cb := s.callbackUpdateOperation } with
    | error e => simp only [hred] at h; exact Except.noConfusion h
    | ok st =>
      simp only [hred] at h
      obtain ⟨hp, hcb⟩ := Schedule.operationsReduce_edit_spec s _ _ _ _ _ _ _ _ st hred
      simp only [List.map_nil, List.nil_append] at hp
      have hcbn := hcb n hnm
      by_cases hemp : st.payloads.isEmpty
      · rw [if_pos hemp] at h
        cases h
        exact ⟨hcbn, fun ps hps => absurd hps (by simp)⟩
      · rw [if_neg hemp] at h
        cases h
        refine ⟨hcbn, ?_⟩
        intro ps hps pm hpm heq
        cases hps
        have hmem : pm.nodeId ∈ st.payloads.map (fun x => x.nodeId) :=
          List.mem_map_of_mem _ hpm
        rw [hp] at hmem
        exact hnm (heq ▸ (List.mem_filter.mp hmem).1)
  · intro s args n
    refine ⟨sceneEditNodes_mem _ s n, ?_⟩
    intro hhas hlook s' ps h
    have hnm : n ∉ Scene.editNodes (jvGet args "actions") s := by
      rw [sceneEditNodes_mem]
      simp [hhas, hlook]
    unfold Scene.edit Scene.operations at h
    simp only [Option.getD_some] at h
    cases hred : Scene.operationsReduce s .EDIT
        (if jvIsUndef (jvGet args "name") then s.name else jvGet args "name")
        (if jvIsUndef (jvGet args "actions") then JVal.obj s.actions else jvGet args "actions")
        (if jvIsUndef (jvGet args "info") then jvOr s.info (.str "") else jvGet args "info")
        (Scene.editNodes (jvGet args "actions") s)
        { payloads := [], cb := s.callbackUpdateOperation } with
    | error e => simp only [hred] at h; exact Except.noConfusion h
    | ok st =>
      simp only [hred] at h
      obtain ⟨hp, hcb⟩ := sceneOperationsReduce_edit_spec s _ _ _ _ _ st hred
      simp only [List.map_nil, List.nil_append] at hp
      cases h
      refine ⟨hcb n hnm, ?_⟩
      intro pm hpm heq
      have hmem : pm.nodeId ∈ st.payloads.map (fun x => x.nodeId) :=
        List.mem_map_of_mem _ hpm
      rw [hp] at hmem
      exact hnm (heq ▸ hmem)

/-- The entity state after the C10 witness edit (`n1` classified EDIT). -/
def c10EditedSched : ScheduleEntity :=
  { c2Sched with callbackUpdateOperation := [("n1", ScheduleOperation.EDIT)] }

/-- The single payload the C10 witness edit emits for `n1`. -/
def c10Payloads : List Schedule.PayloadMsg :=
  [{ nodeId := "n1",
     body := [("id", .str "s2"), ("name", .str "New name"), ("operation", .str "edit"),
              ("action", blobL), ("info", .null), ("triggers", .arr [trg420]),
              ("flags", .null), ("validity", .null)] }]

/-- Witness for claim C10: node `n2` is absent from both action maps of
the concrete edit, so the rename edit of `c2Sched` leaves its ledger entry
untouched and addresses no payload to it. -/
theorem claim_C10_witness :
    lookupKey c10EditedSched.callbackUpdateOperation "n2"
        = lookupKey c2Sched.callbackUpdateOperation "n2"
    ∧ ∀ ps, Schedule.OpOutcome.remoteCall c10Payloads = .remoteCall ps →
        ∀ pm ∈ ps, pm.nodeId ≠ "n2" :=
  ((claim_C10_edit_fans_out_over_action_union).1 c2Sched c1EditArgs "n2").2 rfl rfl
    c10EditedSched (.remoteCall c10Payloads) rfl

/-- The Node Registry entry for a node id (`nodesByID[nodeId]`). -/
def nodeEntry (reg : List ESPRMNodeRec) (nid : String) : Option ESPRMNodeRec :=
  reg.find? (fun n => n.id = nid)

/-- `applyNodeScheduleOp` never changes the node's id. -/
theorem applyNodeScheduleOp_id (node : ESPRMNodeRec) (p : UpdateNodeScheduleArgs)
    (node' : ESPRMNodeRec) (h : applyNodeScheduleOp node p = .ok node') :
    node'.id = node.id := by
  unfold applyNodeScheduleOp at h
  split at h
  next => exact Except.noConfusion h
  next svcIdx heq =>
    split at h
    next => exact Except.noConfusion h
    next svc heq2 =>
      split at h
      next heq3 =>
        split at h
        next e heq4 => exact Except.noConfusion h
        next heq4 => cases h; rfl
      next prm heq3 =>
        split at h
        next e heq4 => exact Except.noConfusion h
        next newFrags heq4 => cases h; rfl

/-- Replacing the node with a given id leaves every other id's entry
unchanged. -/
theorem nodeEntry_replaceNodeFirst_ne (reg : List ESPRMNodeRec) (nid m : String)
    (n' : ESPRMNodeRec) (hid : n'.id = nid) (hm : m ≠ nid) :
    nodeEntry (replaceNodeFirst reg nid n') m = nodeEntry reg m := by
  induction reg with
  | nil => rfl
  | cons node rest ih =>
    unfold replaceNodeFirst
    by_cases h : node.id = nid
    · rw [if_pos h]
      unfold nodeEntry
      rw [List.find?_cons_of_neg _ (by simp [hid, Ne.symm hm]),
          List.find?_cons_of_neg _ (by simp [h, Ne.symm hm])]
    · rw [if_neg h]
      by_cases h2 : node.id = m
      · unfold nodeEntry
        rw [List.find?_cons_of_pos _ (by simp [h2]),
            List.find?_cons_of_pos _ (by simp [h2])]
      · unfold nodeEntry at ih ⊢
        rw [List.find?_cons_of_neg _ (by simp [h2]),
            List.find?_cons_of_neg _ (by simp [h2])]
        exact ih

/-- Replacing the node with a given id makes the replacement that id's
entry, provided the id was present. -/
theorem nodeEntry_replaceNodeFirst_self (reg : List ESPRMNodeRec) (nid : String)
    (n' node : ESPRMNodeRec) (hid : n'.id = nid)
    (hfind : nodeEntry reg nid = some node) :
    nodeEntry (replaceNodeFirst reg nid n') nid = some n' := by
  induction reg with
  | nil => exact Option.noConfusion hfind
  | cons node0 rest ih =>
    unfold replaceNodeFirst
    by_cases h : node0.id = nid
    · rw [if_pos h]
      unfold nodeEntry
      rw [List.find?_cons_of_pos _ (by simp [hid])]
    · rw [if_neg h]
      unfold nodeEntry at hfind ih ⊢
      rw [List.find?_cons_of_neg _ (by simp [h])] at hfind
      rw [List.find?_cons_of_neg _ (by simp [h])]
      exact ih hfind

/-- A successful `updateNodeSchedule` leaves every other node's registry
entry unchanged. -/
theorem updateNodeSchedule_frame (reg : List ESPRMNodeRec)
    (p : UpdateNodeScheduleArgs) (reg' : List ESPRMNodeRec)
    (h : updateNodeSchedule reg p = .ok reg') (m : String) (hm : m ≠ p.nodeId) :
    nodeEntry reg' m = nodeEntry reg m := by
  unfold updateNodeSchedule at h
  split at h
  next => exact Except.noConfusion h
  next node hfind =>
    split at h
    next e happ => exact Except.noConfusion h
    next node' happ =>
      cases h
      have hp := List.find?_some hfind
      have hid : node'.id = p.nodeId := by
        rw [applyNodeScheduleOp_id node p node' happ]
        simpa using hp
      exact nodeEntry_replaceNodeFirst_ne reg p.nodeId m node' hid hm

/-- A successful `updateNodeSchedule` updates exactly the target node's
entry, to the `applyNodeScheduleOp` image of its previous value. -/
theorem updateNodeSchedule_self (reg : List ESPRMNodeRec)
    (p : UpdateNodeScheduleArgs) (reg' : List ESPRMNodeRec)
    (h : updateNodeSchedule reg p = .ok reg') :
    ∃ node node', nodeEntry reg p.nodeId = some node
      ∧ applyNodeScheduleOp node p = .ok node'
      ∧ nodeEntry reg' p.nodeId = some node' := by
  unfold updateNodeSchedule at h
  split at h
  next => exact Except.noConfusion h
  next node hfind =>
    split at h
    next e happ => exact Except.noConfusion h
    next node' happ =>
      cases h
      have hp := List.find?_some hfind
      have hid : node'.id = p.nodeId := by
        rw [applyNodeScheduleOp_id node p node' happ]
        simpa using hp
      exact ⟨node, node', hfind, happ,
        nodeEntry_replaceNodeFirst_self reg p.nodeId node' node hid hfind⟩

/-- The replay loop touches no registry entry whose node id is not among
the successful responses. -/
theorem replayScheduleUpdate_frame (results : List MultiNodeResponsePayload)
    (reg reg' : List ESPRMNodeRec) (cb : List (String × ScheduleOperation))
    (args : JVal) (sid : String) (nl : List String)
    (h : replayScheduleUpdate reg results cb args sid = .ok (reg', nl))
    (m : String) (hm : ∀ r ∈ results, r.status = SUCCESS → r.node_id ≠ m) :
    nodeEntry reg' m = nodeEntry reg m := by
  induction results generalizing reg nl with
  | nil =>
    unfold replayScheduleUpdate at h
    cases h
    rfl
  | cons r rest ih =>
    unfold replayScheduleUpdate at h
    by_cases hst : r.status = SUCCESS
    · rw [if_pos hst] at h
      split at h
      next e heq => exact Except.noConfusion h
      next av heq =>
        split at h
        next e hupd => exact Except.noConfusion h
        next reg1 hupd =>
          split at h
          next e hrec => exact Except.noConfusion h
          next pr hrec =>
            cases h
            rw [ih reg1 pr hrec (fun r' hr' hs =>
              hm r' (List.mem_cons_of_mem r hr') hs)]
            exact updateNodeSchedule_frame reg _ reg1 hupd m
              (fun he => hm r (List.mem_cons_self r rest) hst he.symm)
    · rw [if_neg hst] at h
      exact ih reg nl h (fun r' hr' hs => hm r' (List.mem_cons_of_mem r hr') hs)

/-- Claim C7: reconciliation replays the classified effect into the Node
Registry only for nodes whose result status is success — each such node's
entry becomes exactly the `applyNodeScheduleOp` image (ADD inserts the
fragment, EDIT rewrites name/info/action/triggers/flags/validity in place,
REMOVE deletes it, ENABLE/DISABLE flips `enabled`) of its previous entry,
using that node's recorded classification and its slice of the new action
map — while every node reporting a non-success status keeps its registry
entry unchanged; the collected sync list is exactly the successful node
ids.  Distinctness of the per-node result ids reflects one result per node
in a batch. -/
theorem claim_C7_partial_success_reconciliation
    (reg : List ESPRMNodeRec) (results : List MultiNodeResponsePayload)
    (cb : List (String × ScheduleOperation)) (args : JVal) (sid : String)
    (reg' : List ESPRMNodeRec) (nl : List String)
    (h : replayScheduleUpdate reg results cb args sid = .ok (reg', nl))
    (hnodup : (results.map (·.node_id)).Nodup) :
    (∀ r ∈ results, r.status ≠ SUCCESS →
       nodeEntry reg' r.node_id = nodeEntry reg r.node_id)
    ∧ (∀ r ∈ results, r.status = SUCCESS → ∃ av node node',
        jvGetE (jvGet args "action") r.node_id = .ok av
        ∧ nodeEntry reg r.node_id = some node
        ∧ applyNodeScheduleOp node (replayNodeArgs args sid cb r.node_id av) = .ok node'
        ∧ nodeEntry reg' r.node_id = some node')
    ∧ nl = (results.filter (fun r => r.status = SUCCESS)).map (·.node_id) := by
  induction results generalizing reg nl with
  | nil =>
    unfold replayScheduleUpdate at h
    cases h
    exact ⟨fun r hr => absurd hr (List.not_mem_nil r),
           fun r hr => absurd hr (List.not_mem_nil r), rfl⟩
  | cons r rest ih =>
    rw [List.map_cons, List.nodup_cons] at hnodup
    obtain ⟨hhead, htail⟩ := hnodup
    unfold replayScheduleUpdate at h
    by_cases hst : r.status = SUCCESS
    · rw [if_pos hst] at h
      split at h
      next e heq => exact Except.noConfusion h
      next av heq =>
        split at h
        next e hupd => exact Except.noConfusion h
        next reg1 hupd =>
          split at h
          next e hrec => exact Except.noConfusion h
          next pr hrec =>
            cases h
            obtain ⟨ih1, ih2, ih3⟩ := ih reg1 pr hrec htail
            have hne : ∀ r' ∈ rest, r'.node_id ≠ r.node_id := by
              intro r' hr' he
              exact hhead (he ▸ List.mem_map_of_mem (·.node_id) hr')
            refine ⟨?_, ?_, ?_⟩
            · intro r0 hr0 hs0
              rcases List.mem_cons.mp hr0 with h0 | h0
              · exact absurd (h0 ▸ hst) hs0
              · rw [ih1 r0 h0 hs0]
                exact updateNodeSchedule_frame reg _ reg1 hupd r0.node_id (hne r0 h0)
            · intro r0 hr0 hs0
              rcases List.mem_cons.mp hr0 with h0 | h0
              · subst h0
                obtain ⟨node, node', hfind, happ, hafter⟩ :=
                  updateNodeSchedule_self reg _ reg1 hupd
                refine ⟨av, node, node', heq, hfind, happ, ?_⟩
                rw [replayScheduleUpdate_frame rest reg1 _ cb args sid pr hrec
                  r0.node_id (fun r' hr' _ => hne r' hr')]
                exact hafter
              · obtain ⟨av0, node, node', heq0, hfind0, happ0, hafter0⟩ := ih2 r0 h0 hs0
                refine ⟨av0, node, node', heq0, ?_, happ0, hafter0⟩
                rw [← updateNodeSchedule_frame reg _ reg1 hupd r0.node_id (hne r0 h0)]
                exact hfind0
            · rw [List.filter_cons, if_pos (by simp [hst])]
              rw [List.map_cons, ih3]
    · rw [if_neg hst] at h
      obtain ⟨ih1, ih2, ih3⟩ := ih reg nl h htail
      have hne : ∀ r' ∈ rest, r'.node_id ≠ r.node_id := by
        intro r' hr' he
        exact hhead (he ▸ List.mem_map_of_mem (·.node_id) hr')
      refine ⟨?_, ?_, ?_⟩
      · intro r0 hr0 hs0
        rcases List.mem_cons.mp hr0 with h0 | h0
        · subst h0
          exact replayScheduleUpdate_frame rest reg _ cb args sid nl h
            r0.node_id (fun r' hr' _ => hne r' hr')
        · exact ih1 r0 h0 hs0
      · intro r0 hr0 hs0
        rcases List.mem_cons.mp hr0 with h0 | h0
        · exact absurd (h0 ▸ hs0) hst
        · exact ih2 r0 h0 hs0
      · rw [List.filter_cons, if_neg (by simp [hst])]
        exact ih3

/-- A registry node for the C7 scenario hosting the Evening fragment. -/
def c7Node (nid : String) : ESPRMNodeRec := { id := nid, services := [evSvc "Evening"] }

/-- The 3-node registry of the C7 scenario. -/
def c7Registry : List ESPRMNodeRec := [c7Node "A", c7Node "B", c7Node "C"]

/-- The C7 edit arguments: rename plus a two-device blob for every node. -/
def c7Args : JVal :=
  .obj [("name", .str "New name"), ("triggers", .arr [trg420]),
        ("action", .obj [("A", blob2), ("B", blob2), ("C", blob2)])]

/-- The recorded classifications of the C7 batch (EDIT everywhere). -/
def c7Cb : List (String × ScheduleOperation) := [("A", .EDIT), ("B", .EDIT), ("C", .EDIT)]

/-- The C7 result list: A succeeds, B fails, C succeeds. -/
def c7Results : List MultiNodeResponsePayload :=
  [{ node_id := "A", status := "success", description := "" },
   { node_id := "B", status := "failure", description := "oops" },
   { node_id := "C", status := "success", description := "" }]

/-- B's failed result in the C7 batch. -/
def c7ResB : MultiNodeResponsePayload :=
  { node_id := "B", status := "failure", description := "oops" }

/-- The updated Evening fragment the EDIT replay writes on a successful
node in the C7 scenario. -/
def c7NewFrag : JVal :=
  .obj [("id", .str "s1"), ("name", .str "New name"), ("action", blob2),
        ("triggers", .arr [trg420]), ("info", .undefined), ("flags", .undefined),
        ("validity", .undefined)]

/-- The schedules parameter holding the updated C7 fragment. -/
def c7PrmAfter : ESPRMParamRec := { type := ESPRM_PARAM_SCHEDULES, value := [c7NewFrag] }

/-- The schedules service holding the updated C7 fragment. -/
def c7SvcAfter : ESPRMServiceRec := { type := ESPRM_SERVICE_SCHEDULES, params := [c7PrmAfter] }

/-- A C7 registry node after the replay applied the EDIT. -/
def c7NodeAfter (nid : String) : ESPRMNodeRec := { id := nid, services := [c7SvcAfter] }

/-- The C7 registry after reconciliation: A and C carry the new fragment,
B is untouched. -/
def c7RegAfter : List ESPRMNodeRec := [c7NodeAfter "A", c7Node "B", c7NodeAfter "C"]

/-- Sanity: the replay of the C7 batch produces exactly `c7RegAfter` and
collects the successful nodes A and C. -/
theorem c7Replay_eval :
    replayScheduleUpdate c7Registry c7Results c7Cb c7Args "s1"
      = .ok (c7RegAfter, ["A", "C"]) := rfl

/-- Witness for claim C7 at the 3-node batch: the failed node B's registry
entry is untouched by reconciliation. -/
theorem claim_C7_witness :
    nodeEntry c7RegAfter "B" = nodeEntry c7Registry "B" :=
  (claim_C7_partial_success_reconciliation c7Registry c7Results c7Cb c7Args "s1"
      c7RegAfter ["A", "C"] rfl (by decide)).1 c7ResB (by decide) (by decide)
